import Mathlib

/-!
Verification of the expectation-matching engine of `trio.testing._raises_group`
(file `src/trio/testing/_raises_group.py`).

The embedding models:
* Python exception classes as `ExcType` (a class id together with the ids of
  all ancestor classes, so `isinstance`/`issubclass` are decidable membership
  tests; this allows arbitrary hierarchies including multiple inheritance);
* exception values as the tree `Exc` (a leaf, or an exception group carrying
  an ordered list of children); the rendered text of an exception is its
  message joined with its notes by newlines, as in `_stringify_exception`;
* compiled regular expressions as `RePattern` (pattern source plus flags).
  The engine only ever calls `re.search`; the embedding restricts patterns to
  literal ones, for which `re.search` is exactly substring containment;
* `check` callbacks as `ExcCheck` (a boolean function plus its `repr` string);
* raising a Python exception (KeyError, AssertionError, IndexError, ...) as
  the `.error` case of `Except String`.

Stateful `fail_reason` attributes are modelled by explicit state passing: the
`matches` methods return the pair of their boolean result and the final value
of `fail_reason`.
-/

set_option linter.unusedVariables false

/-- A single quote character, used by the Python repr renderings. -/
def pyQ : String := String.singleton (Char.ofNat 39)

/-- Python `repr` of a string: the text surrounded by single quotes
(escaping of special characters is not modelled). -/
def pyStrRepr (s : String) : String := pyQ ++ s ++ pyQ

/-- A Python exception class: class id, class name, and the ids of all
ancestor classes including itself (the method resolution order). -/
structure ExcType where
  tid : Nat
  name : String
  ancestors : List Nat
deriving DecidableEq, Repr

/-- Python `issubclass`. -/
def issubclass (t u : ExcType) : Bool := t.ancestors.contains u.tid

def BaseExceptionTy : ExcType := ⟨0, "BaseException", [0]⟩
def ExceptionTy : ExcType := ⟨1, "Exception", [1, 0]⟩
def BaseExceptionGroupTy : ExcType := ⟨2, "BaseExceptionGroup", [2, 0]⟩
def ExceptionGroupTy : ExcType := ⟨3, "ExceptionGroup", [3, 2, 1, 0]⟩
def ValueErrorTy : ExcType := ⟨4, "ValueError", [4, 1, 0]⟩
def TypeErrorTy : ExcType := ⟨5, "TypeError", [5, 1, 0]⟩
/-- A type that is not an exception type (not a subclass of BaseException). -/
def IntTy : ExcType := ⟨6, "int", [6]⟩
/-- A class inheriting from both ValueError and TypeError (Python multiple
inheritance), an instance of both. -/
def ValueTypeErrorTy : ExcType := ⟨7, "ValueTypeError", [7, 4, 5, 1, 0]⟩
def KeyboardInterruptTy : ExcType := ⟨8, "KeyboardInterrupt", [8, 0]⟩

/-- A Python exception value: a single exception, or an exception group
carrying an ordered sequence of child exceptions. -/
inductive Exc where
  | leaf (ty : ExcType) (msg : String) (notes : List String)
  | group (ty : ExcType) (msg : String) (notes : List String) (exceptions : List Exc)

instance : Inhabited Exc := ⟨.leaf BaseExceptionTy "" []⟩

def Exc.ty : Exc → ExcType
  | .leaf t _ _ => t
  | .group t _ _ _ => t

def Exc.msg : Exc → String
  | .leaf _ m _ => m
  | .group _ m _ _ => m

def Exc.notes : Exc → List String
  | .leaf _ _ n => n
  | .group _ _ n _ => n

/-- The `.exceptions` attribute of an exception group (empty for a leaf). -/
def Exc.exceptions : Exc → List Exc
  | .leaf _ _ _ => []
  | .group _ _ _ l => l

/-- Python `isinstance(e, t)`. -/
def isinstance (e : Exc) (t : ExcType) : Bool := e.ty.ancestors.contains t.tid

/-- `isinstance(e, BaseExceptionGroup)`. -/
def isinstanceGroup (e : Exc) : Bool := isinstance e BaseExceptionGroupTy

/-- `_stringify_exception`: the message joined with the notes by newlines. -/
def _stringify_exception (e : Exc) : String :=
  String.intercalate "\n" (e.msg :: e.notes)

/-- Python `repr` of an exception value, e.g. `ValueError('msg')`. -/
def Exc.pyRepr : Exc → String
  | .leaf t m _ => t.name ++ "(" ++ pyStrRepr m ++ ")"
  | .group t m _ excs =>
      t.name ++ "(" ++ pyStrRepr m ++ ", [" ++
        String.intercalate ", " (excs.attach.map (fun x => x.val.pyRepr)) ++ "])"
decreasing_by
  have := List.sizeOf_lt_of_mem x.property
  simp only [Exc.group.sizeOf_spec]
  omega

/-- A compiled regular expression: the pattern source and its flags.
Patterns are restricted to literal text, for which `re.search` is substring
containment. -/
structure RePattern where
  pattern : String
  flags : Nat
deriving DecidableEq, Repr

/-- The flags of `re.compile(r"")`: string patterns default to the unicode
flag. -/
def _REGEX_NO_FLAGS : Nat := 32

/-- `re.compile` applied to a plain string. -/
def reCompile (s : String) : RePattern := ⟨s, _REGEX_NO_FLAGS⟩

/-- The pattern character list occurs inside the text character list. -/
def charsOccur (needle : List Char) : List Char → Bool
  | [] => needle.isEmpty
  | c :: t => needle.isPrefixOf (c :: t) || charsOccur needle t

/-- The characters that have a special meaning in Python regular
expressions (the set `re.escape` protects against). -/
def isRegexSpecial (c : Char) : Bool :=
  c == Char.ofNat 92 || c == Char.ofNat 94 || c == Char.ofNat 36 ||
  c == Char.ofNat 46 || c == Char.ofNat 124 || c == Char.ofNat 63 ||
  c == Char.ofNat 42 || c == Char.ofNat 43 || c == Char.ofNat 40 ||
  c == Char.ofNat 41 || c == Char.ofNat 91 || c == Char.ofNat 93 ||
  c == Char.ofNat 123 || c == Char.ofNat 125

/-- One item of the modeled regular-expression fragment: a literal
character, the any-character wildcard `.`, or the anchors `^` and `$`. The
embedding restricts attention to patterns without quantifiers, classes,
groups, alternation, or backslash-escaped alphanumerics; on that fragment
these items are the whole of Python `re` syntax. -/
inductive ReItem where
  | lit (c : Char)
  | dot
  | caret
  | dollar
deriving DecidableEq, Repr

/-- Parse a pattern of the modeled fragment: a backslash (92) escapes the
next character to a literal (as `re.escape` produces), an unescaped `^`
(94), `$` (36) or `.` (46) is an anchor or the wildcard, and every other
character is a literal. -/
def parseItems : List Char → List ReItem
  | [] => []
  | c :: rest =>
    if c = Char.ofNat 92 then
      match rest with
      | [] => [.lit c]
      | d :: rest2 => .lit d :: parseItems rest2
    else if c = Char.ofNat 94 then .caret :: parseItems rest
    else if c = Char.ofNat 36 then .dollar :: parseItems rest
    else if c = Char.ofNat 46 then .dot :: parseItems rest
    else .lit c :: parseItems rest

/-- Match the item list at a given absolute position of the text. A
literal consumes one equal character; the wildcard consumes any character
except a newline; `^` asserts position zero; `$` asserts the end of the
text or the position just before a single trailing newline — exactly
Python `re` semantics without flags. -/
def matchItems : List ReItem → Nat → List Char → Bool
  | [], _, _ => true
  | .lit c :: rest, pos, s =>
    match s.drop pos with
    | c2 :: _ => c == c2 && matchItems rest (pos + 1) s
    | [] => false
  | .dot :: rest, pos, s =>
    match s.drop pos with
    | c2 :: _ => !(c2 == Char.ofNat 10) && matchItems rest (pos + 1) s
    | [] => false
  | .caret :: rest, pos, s => pos == 0 && matchItems rest pos s
  | .dollar :: rest, pos, s =>
    (match s.drop pos with
     | [] => true
     | c2 :: tl => c2 == Char.ofNat 10 && tl.isEmpty) &&
      matchItems rest pos s

/-- `re.search` on the modeled fragment: succeed if the pattern matches
starting at some position of the text (searching, not anchoring). -/
def reSearch (p : RePattern) (s : String) : Bool :=
  (List.range (s.toList.length + 1)).any
    (fun k => matchItems (parseItems p.pattern.toList) k s.toList)

/-- `_match_pattern` keeps the bare pattern string when the flags are the
default; this is the Python `repr` of its result. -/
def _match_pattern_repr (p : RePattern) : String :=
  if p.flags = _REGEX_NO_FLAGS then pyStrRepr p.pattern
  else "re.compile(" ++ pyStrRepr p.pattern ++ ")"

/-- The test `_match_pattern(matchExpr) == stringified_exception`: only a
default-flags pattern is a `str`, and only then can it equal the text. -/
def _match_pattern_eq (p : RePattern) (s : String) : Bool :=
  p.flags = _REGEX_NO_FLAGS && p.pattern = s

/-- `_exception_type_name`: the `repr` of the class name. -/
def _exception_type_name (t : ExcType) : String := pyStrRepr t.name

/-- A `check` callback together with its `repr` (`repr_callable`). -/
structure ExcCheck where
  fn : Exc → Bool
  rep : String

/-- `_check_raw_type`: `None` on success, otherwise the failure message. -/
def _check_raw_type (expected_type : Option ExcType) (exception : Exc) :
    Option String :=
  match expected_type with
  | none => none
  | some t =>
    if !(isinstance exception t) then
      if isinstanceGroup exception then
        some ("Unexpected nested " ++ _exception_type_name exception.ty ++
          ", expected bare " ++ _exception_type_name t)
      else
        some (_exception_type_name exception.ty ++ " is not of type " ++
          _exception_type_name t)
    else none

/-- The base regex-failure message of `_check_match`: the pattern, the text
it failed to match, and the type of the exception when it is a group. -/
def regexFailMsgBase (p : RePattern) (e : Exc) : String :=
  "Regex pattern " ++ _match_pattern_repr p ++ " did not match " ++
    pyStrRepr (_stringify_exception e) ++
    (if isinstanceGroup e then " of " ++ _exception_type_name e.ty else "")

/-- The warning appended when the literal pattern string equals the text. -/
def escapeWarning : String := "\nDid you mean to `re.escape()` the regex?"

/-- `AbstractMatcher._check_match`: `none` on success (including when no
pattern is set), otherwise the `fail_reason` it assigns. -/
def _check_match (matchExpr : Option RePattern) (e : Exc) : Option String :=
  match matchExpr with
  | none => none
  | some p =>
    if reSearch p (_stringify_exception e) then none
    else if _match_pattern_eq p (_stringify_exception e) then
      some (regexFailMsgBase p e ++ escapeWarning)
    else
      some (regexFailMsgBase p e)

/-- `AbstractMatcher._check_check`: `none` on success (including when no check
is set), otherwise the `fail_reason` it assigns. -/
def _check_check (check : Option ExcCheck) (exception : Exc)
    (suppress_repr : Bool) : Option String :=
  match check with
  | none => none
  | some c =>
    if c.fn exception then none
    else
      some ("check" ++ (if suppress_repr then "" else " " ++ c.rep) ++
        " did not return True")

/-- The validated `Matcher` object: exception type, compiled `match` pattern,
and `check` callback (each optional). -/
structure Matcher where
  exception_type : Option ExcType
  matchPat : Option RePattern
  check : Option ExcCheck

/-- `Matcher.__init__`: fails when all three parameters are unset, or when
`exception_type` is not a subclass of `BaseException`. -/
def mkMatcher (exception_type : Option ExcType) (matchPat : Option RePattern)
    (check : Option ExcCheck) : Except String Matcher :=
  if exception_type.isNone && matchPat.isNone && check.isNone then
    .error "You must specify at least one parameter to match on."
  else
    match exception_type with
    | some t =>
      if !(issubclass t BaseExceptionTy) then
        .error ("exception_type " ++ t.name ++
          " must be a subclass of BaseException")
      else .ok ⟨exception_type, matchPat, check⟩
    | none => .ok ⟨exception_type, matchPat, check⟩

/-- `Matcher.matches`, with `fail_reason` made explicit: returns the boolean
result and the final value of `fail_reason` (which `_check_type` resets on
every call). -/
def Matcher.matchesR (m : Matcher) (exception : Exc) : Bool × Option String :=
  match _check_raw_type m.exception_type exception with
  | some r => (false, some r)
  | none =>
    match _check_match m.matchPat exception with
    | some r => (false, some r)
    | none =>
      match _check_check m.check exception true with
      | some r => (false, some r)
      | none => (true, none)

/-- `Matcher.__repr__`. -/
def Matcher.reprStr (m : Matcher) : String :=
  let parameters :=
    (match m.exception_type with | some t => [t.name] | none => []) ++
    (match m.matchPat with
     | some p => ["match=" ++ _match_pattern_repr p] | none => []) ++
    (match m.check with | some c => ["check=" ++ c.rep] | none => [])
  "Matcher(" ++ String.intercalate ", " parameters ++ ")"

mutual
/-- An argument passed as an expected exception to `RaisesGroup`: an exception
type, a `Matcher`, a nested `RaisesGroup`, or any other Python object (which
`RaisesGroup.__init__` rejects); `eother` carries the repr of that object. -/
inductive ExpectedArg where
  | etype (t : ExcType)
  | ematcher (m : Matcher)
  | egroup (r : RaisesGroup)
  | eother (s : String)

/-- The `RaisesGroup` object with the attributes set by `__init__`:
the tuple of expected exceptions, the two flags, the compiled `match`
pattern, the `check` callback, the derived `is_baseexceptiongroup` flag, and
the `_nested` flag (set on a `RaisesGroup` nested inside another one). -/
inductive RaisesGroup where
  | mk (expected_exceptions : List ExpectedArg)
       (allow_unwrapped : Bool) (flatten_subgroups : Bool)
       (matchExpr : Option RePattern) (check : Option ExcCheck)
       (is_baseexceptiongroup : Bool) (nested : Bool)
end

def RaisesGroup.expected_exceptions : RaisesGroup → List ExpectedArg
  | .mk e _ _ _ _ _ _ => e

def RaisesGroup.allow_unwrapped : RaisesGroup → Bool
  | .mk _ a _ _ _ _ _ => a

def RaisesGroup.flatten_subgroups : RaisesGroup → Bool
  | .mk _ _ f _ _ _ _ => f

def RaisesGroup.matchExpr : RaisesGroup → Option RePattern
  | .mk _ _ _ m _ _ _ => m

def RaisesGroup.check : RaisesGroup → Option ExcCheck
  | .mk _ _ _ _ c _ _ => c

def RaisesGroup.is_baseexceptiongroup : RaisesGroup → Bool
  | .mk _ _ _ _ _ b _ => b

def RaisesGroup.nested : RaisesGroup → Bool
  | .mk _ _ _ _ _ _ n => n

def ExpectedArg.isEGroup : ExpectedArg → Bool
  | .egroup _ => true
  | _ => false

mutual
/-- Structural size of an expected pattern (used to compute recursion fuel). -/
def ExpectedArg.psize : ExpectedArg → Nat
  | .etype _ => 1
  | .ematcher _ => 1
  | .eother _ => 1
  | .egroup r => r.psize + 1

def RaisesGroup.psize : RaisesGroup → Nat
  | .mk l _ _ _ _ _ _ => listPsize l + 1

def listPsize : List ExpectedArg → Nat
  | [] => 0
  | a :: rest => a.psize + listPsize rest + 1
end

mutual
/-- Structural size of an exception tree (used to compute recursion fuel). -/
def Exc.esize : Exc → Nat
  | .leaf _ _ _ => 1
  | .group _ _ _ l => listEsize l + 1

def listEsize : List Exc → Nat
  | [] => 0
  | e :: rest => e.esize + listEsize rest + 1
end

mutual
/-- Rendering of a child in `RaisesGroup.__repr__`:
the bare name for a type, the `repr` otherwise. -/
def ExpectedArg.reprInner : ExpectedArg → String
  | .etype t => t.name
  | .ematcher m => m.reprStr
  | .egroup r => r.reprStr
  | .eother s => s
termination_by a => sizeOf a
decreasing_by
  simp only [ExpectedArg.egroup.sizeOf_spec]
  omega

/-- `RaisesGroup.__repr__`. -/
def RaisesGroup.reprStr : RaisesGroup → String
  | .mk expected au fl mp chk _ _ =>
    let reqs := expected.attach.map (fun x => x.val.reprInner) ++
      (if au then ["allow_unwrapped=True"] else []) ++
      (if fl then ["flatten_subgroups=True"] else []) ++
      (match mp with
       | some p => ["match=" ++ _match_pattern_repr p] | none => []) ++
      (match chk with | some c => ["check=" ++ c.rep] | none => [])
    "RaisesGroup(" ++ String.intercalate ", " reqs ++ ")"
termination_by r => sizeOf r
decreasing_by
  have := List.sizeOf_lt_of_mem x.property
  simp only [RaisesGroup.mk.sizeOf_spec]
  omega
end

/-- `RaisesGroup._repr_expected`: the quoted name for a type, the `repr`
otherwise. -/
def RaisesGroup._repr_expected : ExpectedArg → String
  | .etype t => _exception_type_name t
  | .ematcher m => m.reprStr
  | .egroup r => r.reprStr
  | .eother s => s

/-- Mark a directly nested `RaisesGroup` child with `_nested = True`, as the
enclosing `RaisesGroup.__init__` does. -/
def ExpectedArg.setNested : ExpectedArg → ExpectedArg
  | .egroup (.mk e a f m c b _) => .egroup (.mk e a f m c b true)
  | a => a

/-- The verification loop of `RaisesGroup.__init__` over the expected
exceptions: raises on a nested `RaisesGroup` when `flatten_subgroups` is set,
and on an argument that is neither an exception type, a `Matcher`, nor a
`RaisesGroup`; accumulates `is_baseexceptiongroup`. -/
def validateChildren (flatten_subgroups : Bool) :
    List ExpectedArg → Except String Bool
  | [] => .ok false
  | a :: rest =>
    match a with
    | .egroup r =>
      if flatten_subgroups then
        .error ("You cannot specify a nested structure inside a RaisesGroup" ++
          " with `flatten_subgroups=True`. The parameter will flatten" ++
          " subgroups in the raised exceptiongroup before matching, which" ++
          " would never match a nested structure.")
      else
        (validateChildren flatten_subgroups rest).map
          (fun b => r.is_baseexceptiongroup || b)
    | .ematcher m =>
      match m.exception_type with
      | none => validateChildren flatten_subgroups rest
      | some t =>
        (validateChildren flatten_subgroups rest).map
          (fun b => !(issubclass t ExceptionTy) || b)
    | .etype t =>
      if issubclass t BaseExceptionTy then
        (validateChildren flatten_subgroups rest).map
          (fun b => !(issubclass t ExceptionTy) || b)
      else
        .error ("Invalid argument " ++ pyStrRepr t.name ++
          " must be exception type, Matcher, or RaisesGroup.")
    | .eother s =>
      .error ("Invalid argument " ++ s ++
        " must be exception type, Matcher, or RaisesGroup.")

/-- `RaisesGroup.__init__`: the `allow_unwrapped` compatibility checks, then
the verification loop over all expected exceptions. -/
def mkRaisesGroup (exception : ExpectedArg) (other_exceptions : List ExpectedArg)
    (allow_unwrapped flatten_subgroups : Bool) (matchExpr : Option RePattern)
    (check : Option ExcCheck) : Except String RaisesGroup :=
  let expected_exceptions := exception :: other_exceptions
  if allow_unwrapped && !other_exceptions.isEmpty then
    .error ("You cannot specify multiple exceptions with" ++
      " `allow_unwrapped=True.` If you want to match one of multiple" ++
      " possible exceptions you should use a `Matcher`." ++
      " E.g. `Matcher(check=lambda e: isinstance(e, (...)))`")
  else if allow_unwrapped && exception.isEGroup then
    .error ("`allow_unwrapped=True` has no effect when expecting a" ++
      " `RaisesGroup`. You might want it in the expected `RaisesGroup`, or" ++
      " `flatten_subgroups=True` if you do not care about the structure.")
  else if allow_unwrapped && (matchExpr.isSome || check.isSome) then
    .error ("`allow_unwrapped=True` bypasses the `match` and `check`" ++
      " parameters if the exception is unwrapped. If you intended to" ++
      " match/check the exception you should use a `Matcher` object.")
  else
    (validateChildren flatten_subgroups expected_exceptions).map
      (fun is_base =>
        .mk (expected_exceptions.map ExpectedArg.setNested) allow_unwrapped
          flatten_subgroups matchExpr check is_base false)

/-- The recursion of `RaisesGroup._unroll_exceptions`, made structural on a
fuel argument (Python enforces a recursion limit likewise); the fuel is
always sufficient for the wrapper below. -/
def unrollExceptionsF : Nat → List Exc → List Exc
  | 0, _ => []
  | _ + 1, [] => []
  | fuel + 1, e :: rest =>
    if isinstanceGroup e then
      (match e with
       | .group _ _ _ children => unrollExceptionsF fuel children
       | .leaf _ _ _ => []) ++ unrollExceptionsF fuel rest
    else
      e :: unrollExceptionsF fuel rest

/-- `RaisesGroup._unroll_exceptions` (used when `flatten_subgroups=True`):
recursively replace every nested exception group with its children. -/
def _unroll_exceptions (exceptions : List Exc) : List Exc :=
  unrollExceptionsF (listEsize exceptions + 1) exceptions

/-- A cell of the `ResultHolder` table: `none` is `NotChecked`, `some none` a
successful pairing, `some (some s)` a failed pairing with reason `s`. -/
abbrev Cell := Option (Option String)

/-- The `ResultHolder` table: `results[actual][expected]`, rows indexed by
actual exceptions, columns by expected patterns. -/
abbrev Table := List (List Cell)

/-- `ResultHolder.__init__`: an all-`NotChecked` table. -/
def ResultHolder.init (nExpected nActual : Nat) : Table :=
  List.replicate nActual (List.replicate nExpected none)

/-- `ResultHolder.set_result`. -/
def setResult (tbl : Table) (expected actual : Nat) (result : Option String) :
    Table :=
  tbl.set actual ((tbl.getD actual []).set expected (some result))

/-- Read a raw cell of the table (`NotChecked` when out of range). -/
def getCell (tbl : Table) (expected actual : Nat) : Cell :=
  (tbl.getD actual []).getD expected none

/-- `ResultHolder.get_result`, whose assertion that the cell was checked is
modelled as an AssertionError. -/
def getResultE (tbl : Table) (expected actual : Nat) :
    Except String (Option String) :=
  match getCell tbl expected actual with
  | none => .error "AssertionError: NotChecked"
  | some r => .ok r

/-- `ResultHolder.has_result`. -/
def hasResult (tbl : Table) (expected actual : Nat) : Bool :=
  (getCell tbl expected actual).isSome

/-- `ResultHolder.no_match_for_expected`: none of the given expected columns
has a successful cell in any row. -/
def noMatchForExpected (tbl : Table) (expected : List Nat) : Bool :=
  expected.all fun i => tbl.all fun actual_results =>
    !(actual_results.getD i none == some none)

/-- `ResultHolder.no_match_for_actual`: none of the given actual rows has a
successful cell in any column. -/
def noMatchForActual (tbl : Table) (actual : List Nat) : Bool :=
  actual.all fun i => (tbl.getD i []).all fun res => !(res == some none)

/-- The recursion of `possible_match`: `rows` are the rows still to be
assigned (in the source, row number `len(used)` onward), `used` the set of
already claimed columns; try every unused successful column of the current
row and recurse. -/
def possibleMatchAux : Table → List Nat → Bool
  | [], _ => true
  | row :: rest, used =>
    (List.range row.length).any fun i =>
      row.getD i none == some none && !(used.contains i) &&
        possibleMatchAux rest (i :: used)

/-- `possible_match(results)`: backtracking search for some assignment of
every row to a distinct successful column. -/
def possible_match (results : Table) : Bool :=
  possibleMatchAux results []

/-- One step of the greedy scan of `_check_exceptions`: for expected pattern
`i_exp`, walk the remaining actual indexes in order, record every attempted
pair in the table, and stop at the first success. -/
def scanRemaining (chkRow : Nat → Except String (Option String)) (i_exp : Nat) :
    List Nat → Table → Except String (Option Nat × Table)
  | [], tbl => .ok (none, tbl)
  | i_rem :: rest, tbl =>
    match chkRow i_rem with
    | .error e => .error e
    | .ok res =>
      match res with
      | none => .ok (some i_rem, setResult tbl i_exp i_rem res)
      | some _ => scanRemaining chkRow i_exp rest (setResult tbl i_exp i_rem res)

/-- The outcome of the greedy pass of `_check_exceptions`. -/
structure GreedyResult where
  remaining_actual : List Nat
  failed_expected : List Nat
  pairs : List (Nat × Nat)
  results : Table

/-- The greedy expected-first loop of `_check_exceptions`: for each expected
index in order, claim the first remaining actual index it matches (removing
it from the pool), else record the expected index as failed. `pairs` is the
`matches` dict as an association list in insertion order. -/
def greedyLoop (chk : Nat → Nat → Except String (Option String)) :
    List Nat → List Nat → Table → Except String GreedyResult
  | [], remaining_actual, tbl => .ok ⟨remaining_actual, [], [], tbl⟩
  | i_exp :: rest, remaining_actual, tbl =>
    match scanRemaining (chk i_exp) i_exp remaining_actual tbl with
    | .error e => .error e
    | .ok (some i_rem, tbl') =>
      (greedyLoop chk rest (remaining_actual.erase i_rem) tbl').map
        fun out => { out with pairs := (i_exp, i_rem) :: out.pairs }
    | .ok (none, tbl') =>
      (greedyLoop chk rest remaining_actual tbl').map
        fun out => { out with failed_expected := i_exp :: out.failed_expected }

/-- The exhaustive fill of the table done once the greedy pass has failed:
compute every not-yet-checked pair. -/
def fillTable (chk : Nat → Nat → Except String (Option String)) (n m : Nat)
    (tbl : Table) : Except String Table :=
  (List.range n).foldlM
    (fun tbl i_exp =>
      (List.range m).foldlM
        (fun tbl i_actual =>
          if hasResult tbl i_exp i_actual then .ok tbl
          else (chk i_exp i_actual).map (setResult tbl i_exp i_actual))
        tbl)
    tbl

def indent_1 : String := "  "
def indent_2 : String := "    "

/-- `textwrap.indent(s, pre)`: prefix every nonempty line. -/
def indentStr (s pre : String) : String :=
  String.intercalate "\n"
    ((s.splitOn "\n").map (fun line => if line = "" then line else pre ++ line))

/-- The inner loop of the failed-expected report: for each actual exception,
consult the table row of the STALE loop variable `i_exp` (which after the
exhaustive fill equals `len(expected_exceptions) - 1`), and for a successful
cell report the pairing found in `rev_matches` (a KeyError when the actual
exception was never claimed). -/
def failedInnerGo (reprs : List String) (results : Table)
    (rev_matches : List (Nat × Nat)) (i_exp_stale : Nat) :
    Nat → List Exc → String → Except String String
  | _, [], s => .ok s
  | i_actual, actual :: rest, s =>
    match getResultE results i_exp_stale i_actual with
    | .error e => .error e
    | .ok none =>
      match rev_matches.lookup i_actual with
      | none => .error ("KeyError: " ++ toString i_actual)
      | some k =>
        failedInnerGo reprs results rev_matches i_exp_stale (i_actual + 1) rest
          (s ++ "\n" ++ indent_2 ++ "It matches " ++ actual.pyRepr ++
            " which was paired with " ++ reprs.getD k "")
    | .ok (some _) =>
      failedInnerGo reprs results rev_matches i_exp_stale (i_actual + 1) rest s

/-- The loop over the failed expected patterns in the general-case report. -/
def failedLoopGo (reprs : List String) (actual_exceptions : List Exc)
    (results : Table) (rev_matches : List (Nat × Nat)) (i_exp_stale : Nat) :
    List Nat → String → Except String String
  | [], s => .ok s
  | i_failed :: rest, s =>
    match failedInnerGo reprs results rev_matches i_exp_stale 0
        actual_exceptions (s ++ "\n" ++ indent_1 ++ reprs.getD i_failed "") with
    | .error e => .error e
    | .ok s => failedLoopGo reprs actual_exceptions results rev_matches
        i_exp_stale rest s

/-- The inner loop of the unmatched-actual report: walk every expected
pattern; for a failed one print its failure reason against this actual
exception, for a successful cell report the pairing recorded in `matches`. -/
def remainingInnerGo (reprs : List String) (actual_exceptions : List Exc)
    (results : Table) (failed_expected : List Nat) (pairs : List (Nat × Nat))
    (i_actual : Nat) : List Nat → String → Except String String
  | [], s => .ok s
  | i_exp :: rest, s =>
    match getResultE results i_exp i_actual with
    | .error e => .error e
    | .ok res =>
      match
        (if failed_expected.contains i_exp then
          match res with
          | none => Except.error "AssertionError: res is not None"
          | some r =>
            Except.ok (s ++ (if !(r.startsWith "\n") then "\n" else "") ++
              indentStr r indent_2)
        else Except.ok s) with
      | .error e => .error e
      | .ok s =>
        match res with
        | none =>
          match pairs.lookup i_exp with
          | none => .error ("KeyError: " ++ toString i_exp)
          | some j =>
            remainingInnerGo reprs actual_exceptions results failed_expected
              pairs i_actual rest
              (s ++ "\n" ++ indent_2 ++ "It matches " ++ reprs.getD i_exp "" ++
                " which was paired with " ++
                (actual_exceptions.getD j default).pyRepr)
        | some _ =>
          remainingInnerGo reprs actual_exceptions results failed_expected
            pairs i_actual rest s

/-- The loop over the unmatched actual exceptions in the general-case
report. -/
def remainingLoopGo (reprs : List String) (actual_exceptions : List Exc)
    (results : Table) (failed_expected : List Nat) (pairs : List (Nat × Nat))
    (n : Nat) : List Nat → String → Except String String
  | [], s => .ok s
  | i_actual :: rest, s =>
    match remainingInnerGo reprs actual_exceptions results failed_expected
        pairs i_actual (List.range n)
        (s ++ "\n" ++ indent_1 ++
          (actual_exceptions.getD i_actual default).pyRepr ++ ":") with
    | .error e => .error e
    | .ok s =>
      remainingLoopGo reprs actual_exceptions results failed_expected pairs n
        rest s

/-- The pairwise check function of `_check_exceptions`: check expected
pattern `i_exp` against actual exception `i_actual`. -/
def mkChk (rowFns : List (Exc → Except String (Option String)))
    (actual_exceptions : List Exc) (i_exp i_actual : Nat) :
    Except String (Option String) :=
  match rowFns.get? i_exp, actual_exceptions.get? i_actual with
  | some f, some a => f a
  | _, _ => .error "IndexError"

/-- The note appended when the exhaustive check finds a pairing the greedy
algorithm missed. -/
def possibleMatchNote : String :=
  "\nThere exist a possible match when attempting an exhaustive check, but" ++
  " RaisesGroup uses a greedy algorithm. Please make your expected" ++
  " exceptions more stringent with `Matcher` etc so the greedy algorithm" ++
  " can function."

/-- The body of `RaisesGroup._check_exceptions`, with the expected patterns
supplied as their pairwise check functions (`rowFns`) and their reprs, and
the consultation of `possible_match` abstracted as `pm`. Returns the boolean
result together with the `fail_reason` it assigns. -/
def checkExceptionsCore (pm : Table → Bool)
    (rowFns : List (Exc → Except String (Option String)))
    (reprs : List String) (actual_exceptions : List Exc) :
    Except String (Bool × Option String) :=
  let n := rowFns.length
  let m := actual_exceptions.length
  let chk := mkChk rowFns actual_exceptions
  match greedyLoop chk (List.range n) (List.range m) (ResultHolder.init n m) with
  | .error e => .error e
  | .ok g =>
    if g.remaining_actual.isEmpty && g.failed_expected.isEmpty then
      -- all exceptions matched up successfully
      .ok (true, none)
    else if m = 1 && n = 1 then
      -- single expected and single raised: fail_reason is `res`, the last
      -- pairwise result computed by the greedy loop, held at cell (0, 0)
      .ok (false, (getCell g.results 0 0).getD none)
    else
      match fillTable chk n m g.results with
      | .error e => .error e
      | .ok results =>
        let successful_str :=
          if !g.pairs.isEmpty then
            toString g.pairs.length ++ " matched exception" ++
              (if g.pairs.length > 1 then "s" else "") ++ ". "
          else ""
        if g.failed_expected.isEmpty &&
            noMatchForActual results g.remaining_actual then
          .ok (false, some (successful_str ++ "Unexpected exception(s): [" ++
            String.intercalate ", "
              (g.remaining_actual.map
                (fun i => (actual_exceptions.getD i default).pyRepr)) ++ "]"))
        else if g.remaining_actual.isEmpty &&
            noMatchForExpected results g.failed_expected then
          .ok (false, some (successful_str ++
            "Too few exceptions raised, found no match for: [" ++
            String.intercalate ", "
              (g.failed_expected.map (fun i => reprs.getD i "")) ++ "]"))
        else if g.remaining_actual.length = 1 &&
            g.failed_expected.length = 1 &&
            noMatchForActual results g.remaining_actual &&
            noMatchForExpected results g.failed_expected then
          match getResultE results (g.failed_expected.getD 0 0)
              (g.remaining_actual.getD 0 0) with
          | .error e => .error e
          | .ok r => .ok (false, some (successful_str ++ r.getD "None"))
        else
          -- the general case: both failed expected and unmatched actual
          let s := if !g.pairs.isEmpty then "\n" ++ successful_str else ""
          let s := s ++
            (if g.remaining_actual.isEmpty then "\nToo few exceptions raised!"
             else if g.failed_expected.isEmpty then "\nUnexpected exception(s)!"
             else "")
          let s := s ++
            (if !g.failed_expected.isEmpty then
              "\nThe following expected exceptions did not find a match:"
             else "")
          let rev_matches := g.pairs.map (fun p => (p.2, p.1))
          match failedLoopGo reprs actual_exceptions results rev_matches
              (n - 1) g.failed_expected s with
          | .error e => .error e
          | .ok s =>
            let s := s ++
              (if !g.remaining_actual.isEmpty then
                "\nThe following raised exceptions did not find a match"
               else "")
            match remainingLoopGo reprs actual_exceptions results
                g.failed_expected g.pairs n g.remaining_actual s with
            | .error e => .error e
            | .ok s =>
              let s := if n = m && pm results then s ++ possibleMatchNote
                else s
              .ok (false, some s)

theorem sizeOf_mem_expected {a : ExpectedArg} {rg : RaisesGroup}
    (h : a ∈ rg.expected_exceptions) : sizeOf a < sizeOf rg := by
  cases rg with
  | mk l au fl mp chk b nn =>
    have h2 := List.sizeOf_lt_of_mem h
    simp only [RaisesGroup.expected_exceptions] at h2
    simp only [RaisesGroup.mk.sizeOf_spec]
    omega

def fuelA (a : ExpectedArg) : Nat := 3 * a.psize + 1
def fuelG (rg : RaisesGroup) : Nat := 3 * rg.psize + 2
def fuelM (rg : RaisesGroup) : Nat := 3 * rg.psize + 3

mutual

/-- `RaisesGroup._check_expected`: check one expected pattern against one
exception; `.ok none` on success, the formatted failure string otherwise.
An argument that is not a type, a Matcher or a RaisesGroup has no `matches`
method, which is an AttributeError. The recursion into nested `RaisesGroup`
patterns is made structural on a fuel argument (Python enforces a recursion
limit likewise); the wrappers below always supply sufficient fuel. -/
def checkExpectedArgF : Nat → ExpectedArg → Exc → Except String (Option String)
  | 0, _, _ => .error "RecursionError"
  | _ + 1, .etype t, exception => .ok (_check_raw_type (some t) exception)
  | _ + 1, .ematcher m, exception =>
    (match m.matchesR exception with
    | (true, _) => .ok none
    | (false, fr) =>
      match fr with
      | none => .error "AssertionError: fail_reason is not None"
      | some fr =>
        .ok (some (if fr.startsWith "\n" then
            "\n" ++ m.reprStr ++ ": " ++ indentStr fr indent_1
          else m.reprStr ++ ": " ++ fr)))
  | fuel + 1, .egroup r, exception =>
    (match matchesRF fuel r (some exception) with
    | .error e => .error e
    | .ok (true, _) => .ok none
    | .ok (false, fr) =>
      match fr with
      | none => .error "AssertionError: fail_reason is not None"
      | some fr =>
        .ok (some (if fr.startsWith "\n" then
            "\n" ++ r.reprStr ++ ": " ++ indentStr fr indent_1
          else r.reprStr ++ ": " ++ fr)))
  | _ + 1, .eother s, _ => .error ("AttributeError: " ++ s)

/-- `RaisesGroup._check_exceptions` (fuelled). -/
def checkExceptionsRF : Nat → RaisesGroup → List Exc →
    Except String (Bool × Option String)
  | 0, _, _ => .error "RecursionError"
  | fuel + 1, rg, actual_exceptions =>
    checkExceptionsCore possible_match
      (rg.expected_exceptions.map (fun a => fun e => checkExpectedArgF fuel a e))
      (rg.expected_exceptions.map RaisesGroup._repr_expected)
      actual_exceptions

/-- `RaisesGroup.matches` (fuelled): returns the boolean result and the final
value of `fail_reason` (which is reset to `None` on entry). -/
def matchesRF : Nat → RaisesGroup → Option Exc →
    Except String (Bool × Option String)
  | 0, _, _ => .error "RecursionError"
  | fuel + 1, rg, exc_val =>
    match exc_val with
    | none => .ok (false, some "exception is None")
    | some exc =>
      if !(isinstanceGroup exc) then
        let not_group_msg :=
          pyStrRepr exc.ty.name ++ " is not an exception group"
        if rg.expected_exceptions.length > 1 then
          .ok (false, some not_group_msg)
        else
          match rg.expected_exceptions with
          | [] => .error "IndexError: tuple index out of range"
          | e0 :: _ =>
            match checkExpectedArgF fuel e0 exc with
            | .error e => .error e
            | .ok res =>
              if res.isNone && rg.allow_unwrapped then .ok (true, none)
              else if res.isNone then
                .ok (false, some (not_group_msg ++
                  ", but would match with `allow_unwrapped=True`"))
              else if rg.allow_unwrapped then .ok (false, res)
              else .ok (false, some not_group_msg)
      else
        let actual_exceptions := exc.exceptions
        let actual_exceptions :=
          if rg.flatten_subgroups then _unroll_exceptions actual_exceptions
          else actual_exceptions
        match _check_match rg.matchExpr exc with
        | some old_reason =>
          -- opportunistic re-check whether the single expected type and
          -- single actual exception would have matched the pattern
          let hint_case :=
            match rg.expected_exceptions, actual_exceptions with
            | [.etype t], [actual] =>
              if isinstance actual t &&
                  (_check_match rg.matchExpr actual).isNone then
                some t
              else none
            | _, _ => none
          match hint_case with
          | some t =>
            .ok (false, some (old_reason ++ ", but matched the expected " ++
              RaisesGroup._repr_expected (.etype t) ++
              ". You might want RaisesGroup(Matcher(" ++ t.name ++
              ", match=" ++
              (match rg.matchExpr with
               | some p => _match_pattern_repr p
               | none => "None") ++ "))"))
          | none => .ok (false, some old_reason)
        | none =>
          match checkExceptionsRF fuel rg actual_exceptions with
          | .error e => .error e
          | .ok (true, _) =>
            -- only run `self.check` once `exc_val` is known to be correct
            .ok (match _check_check rg.check exc rg.nested with
                 | none => (true, none)
                 | some r => (false, some r))
          | .ok (false, fr) =>
            match fr with
            | none => .error "AssertionError: fail_reason is not None"
            | some old_reason =>
              -- when not expecting a nested structure but there is one, do a
              -- diagnostic-only second pass with the subgroups flattened
              if !rg.flatten_subgroups &&
                  !(rg.expected_exceptions.any ExpectedArg.isEGroup) &&
                  actual_exceptions.any isinstanceGroup then
                match checkExceptionsRF fuel rg
                    (_unroll_exceptions exc.exceptions) with
                | .error e => .error e
                | .ok (ok2, _) =>
                  .ok (false, some (if ok2 then old_reason ++
                      "\nDid you mean to use `flatten_subgroups=True`?"
                    else old_reason))
              else .ok (false, some old_reason)

end

/-- `RaisesGroup._check_expected`. -/
def checkExpectedArg (a : ExpectedArg) (e : Exc) :
    Except String (Option String) :=
  checkExpectedArgF (fuelA a) a e

/-- `RaisesGroup._check_exceptions`: pair up expected and actual exceptions
greedily and report; returns the boolean result and the `fail_reason` it
assigns. -/
def RaisesGroup.checkExceptionsR (rg : RaisesGroup)
    (actual_exceptions : List Exc) : Except String (Bool × Option String) :=
  checkExceptionsRF (fuelG rg) rg actual_exceptions

/-- `RaisesGroup.matches`: returns the boolean result and the final value of
`fail_reason`. -/
def RaisesGroup.matchesR (rg : RaisesGroup) (exc_val : Option Exc) :
    Except String (Bool × Option String) :=
  matchesRF (fuelM rg) rg exc_val

/-- The boolean verdict of `RaisesGroup.matches`; a run that raises an
internal error does not return `True`. -/
def RaisesGroup.matchesB (rg : RaisesGroup) (exc_val : Option Exc) : Bool :=
  match rg.matchesR exc_val with
  | .ok (b, _) => b
  | .error _ => false

/-- The per-expected-pattern check functions built by
`RaisesGroup._check_exceptions` (with the fuel its recursion uses). -/
def RaisesGroup.rowFns (rg : RaisesGroup) :
    List (Exc → Except String (Option String)) :=
  rg.expected_exceptions.map
    (fun a => fun e => checkExpectedArgF (3 * rg.psize + 1) a e)

/-- The reprs of the expected patterns used in diagnostics. -/
def RaisesGroup.reprsOf (rg : RaisesGroup) : List String :=
  rg.expected_exceptions.map RaisesGroup._repr_expected

/-- The pairwise check function of `RaisesGroup._check_exceptions`. -/
def RaisesGroup.chkOf (rg : RaisesGroup) (actual_exceptions : List Exc) :
    Nat → Nat → Except String (Option String) :=
  mkChk rg.rowFns actual_exceptions

/-- The greedy pass of `RaisesGroup._check_exceptions` run on its own. -/
def greedyRunOf (rg : RaisesGroup) (actual_exceptions : List Exc) :
    Except String GreedyResult :=
  greedyLoop (rg.chkOf actual_exceptions)
    (List.range rg.rowFns.length)
    (List.range actual_exceptions.length)
    (ResultHolder.init rg.rowFns.length actual_exceptions.length)

/-- The `_ExceptionInfo` capture handle: `none` until filled, then the
`(type, value, traceback)` triple (value and traceback as the objects Python
stores, which may be `None`; the traceback is an opaque token). -/
def ExceptionInfoT : Type := Option (ExcType × Option Exc × Option Nat)

/-- `_ExceptionInfo.for_later()`: an unfilled handle. -/
def ExceptionInfo.for_later : ExceptionInfoT := none

/-- `_ExceptionInfo.fill_unfilled`: asserts the handle was not yet filled. -/
def ExceptionInfo.fill_unfilled (info : ExceptionInfoT)
    (exc_info : ExcType × Option Exc × Option Nat) :
    Except String ExceptionInfoT :=
  match info with
  | some _ => .error "AssertionError: ExceptionInfo was already filled"
  | none => .ok (some exc_info)

/-- The `.type` accessor: an error before the handle is filled. -/
def ExceptionInfo.typeA (info : ExceptionInfoT) : Except String ExcType :=
  match info with
  | none => .error "AssertionError: .type can only be used after the context manager exits"
  | some i => .ok i.1

/-- The `.value` accessor: an error before the handle is filled. -/
def ExceptionInfo.valueA (info : ExceptionInfoT) :
    Except String (Option Exc) :=
  match info with
  | none => .error "AssertionError: .value can only be used after the context manager exits"
  | some i => .ok i.2.1

/-- The `.tb` accessor: an error before the handle is filled. -/
def ExceptionInfo.tbA (info : ExceptionInfoT) : Except String (Option Nat) :=
  match info with
  | none => .error "AssertionError: .tb can only be used after the context manager exits"
  | some i => .ok i.2.2

mutual
/-- The rendering of one expected pattern inside
`RaisesGroup.expected_type()`; the `eother` case raises AssertionError in the
source, rendered here as a placeholder string since only the message text is
affected. -/
def ExpectedArg.expectedTypeInner : ExpectedArg → String
  | .ematcher m => m.reprStr
  | .egroup r => r.expectedTypeStr
  | .etype t => t.name
  | .eother _ => "unknown type"
termination_by a => sizeOf a
decreasing_by
  simp only [ExpectedArg.egroup.sizeOf_spec]
  omega

/-- `RaisesGroup.expected_type()` (used only in failure messages). -/
def RaisesGroup.expectedTypeStr : RaisesGroup → String
  | .mk e _ _ _ _ b _ =>
    (if b then "Base" else "") ++ "ExceptionGroup(" ++
      String.intercalate ", " (e.attach.map (fun x => x.val.expectedTypeInner)) ++
      ")"
termination_by r => sizeOf r
decreasing_by
  have := List.sizeOf_lt_of_mem x.property
  simp only [RaisesGroup.mk.sizeOf_spec]
  omega
end

/-- `RaisesGroup.__enter__` creates an unfilled handle. -/
def RaisesGroup.enterR : ExceptionInfoT := ExceptionInfo.for_later

/-- `RaisesGroup.__exit__`: takes the handle created by `__enter__` and the
`(exc_type, exc_val, exc_tb)` triple; asserts an exception was raised and
that it matches, then fills the handle and returns `True` (the error is
absorbed). A failed assertion or a propagated internal error is `.error`. -/
def RaisesGroup.exitR (rg : RaisesGroup) (excinfo : ExceptionInfoT)
    (exc_type : Option ExcType) (exc_val : Option Exc)
    (exc_tb : Option Nat) : Except String (Bool × ExceptionInfoT) :=
  match exc_type with
  | none =>
    .error ("AssertionError: DID NOT RAISE any exception, expected " ++
      rg.expectedTypeStr)
  | some ety =>
    let group_str :=
      if rg.allow_unwrapped && !(issubclass ety BaseExceptionGroupTy) then
        "(group)"
      else "group"
    match rg.matchesR exc_val with
    | .error e => .error e
    | .ok (true, _) =>
      match ExceptionInfo.fill_unfilled excinfo (ety, exc_val, exc_tb) with
      | .error e => .error e
      | .ok info => .ok (true, info)
    | .ok (false, fr) =>
      .error ("AssertionError: Raised exception " ++ group_str ++
        " did not match: " ++ fr.getD "None")

/-! Helper lemmas and per-shape unfolding equations. -/

/-- An `Except` computation raised an error. -/
def isErrE {α : Type} (x : Except String α) : Bool :=
  match x with | .error _ => true | .ok _ => false

theorem isErrE_map {α β : Type} (f : α → β) (x : Except String α) :
    isErrE (x.map f) = isErrE x := by
  cases x <;> rfl

theorem checkExpectedArgF_succ_etype (f : Nat) (t : ExcType) (e : Exc) :
    checkExpectedArgF (f + 1) (.etype t) e =
      .ok (_check_raw_type (some t) e) := rfl

theorem checkExpectedArg_etype (t : ExcType) (e : Exc) :
    checkExpectedArg (.etype t) e = .ok (_check_raw_type (some t) e) := rfl

theorem checkExpectedArgF_succ_ematcher (f : Nat) (m : Matcher) (e : Exc) :
    checkExpectedArgF (f + 1) (.ematcher m) e =
      (match m.matchesR e with
      | (true, _) => .ok none
      | (false, fr) =>
        match fr with
        | none => .error "AssertionError: fail_reason is not None"
        | some fr =>
          .ok (some (if fr.startsWith "\n" then
              "\n" ++ m.reprStr ++ ": " ++ indentStr fr indent_1
            else m.reprStr ++ ": " ++ fr))) := rfl

theorem checkExpectedArg_ematcher (m : Matcher) (e : Exc) :
    checkExpectedArg (.ematcher m) e =
      (match m.matchesR e with
      | (true, _) => .ok none
      | (false, fr) =>
        match fr with
        | none => .error "AssertionError: fail_reason is not None"
        | some fr =>
          .ok (some (if fr.startsWith "\n" then
              "\n" ++ m.reprStr ++ ": " ++ indentStr fr indent_1
            else m.reprStr ++ ": " ++ fr))) := rfl

theorem checkExpectedArg_egroup (r : RaisesGroup) (e : Exc) :
    checkExpectedArg (.egroup r) e =
      (match r.matchesR (some e) with
      | .error e => .error e
      | .ok (true, _) => .ok none
      | .ok (false, fr) =>
        match fr with
        | none => .error "AssertionError: fail_reason is not None"
        | some fr =>
          .ok (some (if fr.startsWith "\n" then
              "\n" ++ r.reprStr ++ ": " ++ indentStr fr indent_1
            else r.reprStr ++ ": " ++ fr))) := rfl

theorem checkExceptionsR_def (rg : RaisesGroup) (A : List Exc) :
    rg.checkExceptionsR A =
      checkExceptionsCore possible_match
        (rg.expected_exceptions.map
          (fun a => fun e => checkExpectedArgF (3 * rg.psize + 1) a e))
        (rg.expected_exceptions.map RaisesGroup._repr_expected) A := rfl

/-! C4: construction errors. -/

theorem validateChildren_eother {s : String} {l : List ExpectedArg}
    (h : ExpectedArg.eother s ∈ l) (fl : Bool) :
    isErrE (validateChildren fl l) = true := by
  induction l with
  | nil => cases h
  | cons a rest ih =>
    rcases List.mem_cons.mp h with h0 | h1
    · subst h0; rfl
    · cases a with
      | etype t =>
        simp only [validateChildren]
        split
        · rw [isErrE_map]; exact ih h1
        · rfl
      | ematcher m =>
        simp only [validateChildren]
        cases m.exception_type with
        | none => exact ih h1
        | some t => rw [isErrE_map]; exact ih h1
      | egroup r =>
        simp only [validateChildren]
        split
        · rfl
        · rw [isErrE_map]; exact ih h1
      | eother s2 => rfl

theorem validateChildren_egroup_flatten {r : RaisesGroup}
    {l : List ExpectedArg} (h : ExpectedArg.egroup r ∈ l) :
    isErrE (validateChildren true l) = true := by
  induction l with
  | nil => cases h
  | cons a rest ih =>
    rcases List.mem_cons.mp h with h0 | h1
    · subst h0; rfl
    · cases a with
      | etype t =>
        simp only [validateChildren]
        split
        · rw [isErrE_map]; exact ih h1
        · rfl
      | ematcher m =>
        simp only [validateChildren]
        cases m.exception_type with
        | none => exact ih h1
        | some t => rw [isErrE_map]; exact ih h1
      | egroup r2 => rfl
      | eother s2 => rfl

theorem mkRaisesGroup_isErr_of_validate {exc : ExpectedArg}
    {rest : List ExpectedArg} {au fl : Bool} {mp : Option RePattern}
    {c : Option ExcCheck}
    (h : isErrE (validateChildren fl (exc :: rest)) = true) :
    isErrE (mkRaisesGroup exc rest au fl mp c) = true := by
  unfold mkRaisesGroup
  split
  · rfl
  · split
    · rfl
    · split
      · rfl
      · rw [isErrE_map]; exact h

/-- C4: every listed invalid configuration raises at construction: a Matcher
with all of exception_type, match and check unset; a Matcher whose
exception_type is not an exception type; `allow_unwrapped=True` with more
than one expected pattern, with a nested RaisesGroup, or with match/check;
`flatten_subgroups=True` with a nested RaisesGroup anywhere among the
children; and an expected argument that is neither a type, a Matcher nor a
RaisesGroup. -/
theorem raisesGroup_construction_errors :
    (isErrE (mkMatcher none none none) = true) ∧
    (∀ (t : ExcType) (mp : Option RePattern) (c : Option ExcCheck),
      issubclass t BaseExceptionTy = false →
      isErrE (mkMatcher (some t) mp c) = true) ∧
    (∀ (exc : ExpectedArg) (e2 : ExpectedArg) (rest : List ExpectedArg)
      (fl : Bool) (mp : Option RePattern) (c : Option ExcCheck),
      isErrE (mkRaisesGroup exc (e2 :: rest) true fl mp c) = true) ∧
    (∀ (r : RaisesGroup) (fl : Bool) (mp : Option RePattern)
      (c : Option ExcCheck),
      isErrE (mkRaisesGroup (.egroup r) [] true fl mp c) = true) ∧
    (∀ (exc : ExpectedArg) (fl : Bool) (mp : Option RePattern)
      (c : Option ExcCheck), (mp.isSome || c.isSome) = true →
      isErrE (mkRaisesGroup exc [] true fl mp c) = true) ∧
    (∀ (exc : ExpectedArg) (rest : List ExpectedArg) (au : Bool)
      (mp : Option RePattern) (c : Option ExcCheck) (r : RaisesGroup),
      ExpectedArg.egroup r ∈ exc :: rest →
      isErrE (mkRaisesGroup exc rest au true mp c) = true) ∧
    (∀ (exc : ExpectedArg) (rest : List ExpectedArg) (au fl : Bool)
      (mp : Option RePattern) (c : Option ExcCheck) (s : String),
      ExpectedArg.eother s ∈ exc :: rest →
      isErrE (mkRaisesGroup exc rest au fl mp c) = true) := by
  refine ⟨rfl, ?_, ?_, ?_, ?_, ?_, ?_⟩
  · intro t mp c ht
    unfold mkMatcher
    split
    · rfl
    · split
      · split
        · rfl
        · simp_all
      · simp_all
  · intro exc e2 rest fl mp c
    rfl
  · intro r fl mp c
    rfl
  · intro exc fl mp c h
    unfold mkRaisesGroup
    split
    · rfl
    · split
      · rfl
      · split
        · rfl
        · rename_i h1 h2 h3
          exact absurd (by simp [h]) h3
  · intro exc rest au mp c r h
    exact mkRaisesGroup_isErr_of_validate (validateChildren_egroup_flatten h)
  · intro exc rest au fl mp c s h
    exact mkRaisesGroup_isErr_of_validate (validateChildren_eother h fl)

/-- Witness for C4 at concrete invalid configurations. -/
theorem raisesGroup_construction_errors_witness :
    (issubclass IntTy BaseExceptionTy = false ∧
      isErrE (mkMatcher (some IntTy) none none) = true) ∧
    (isErrE (mkRaisesGroup (.etype ValueErrorTy) [] true false
      (some (reCompile "x")) none) = true) ∧
    (isErrE (mkRaisesGroup (.etype ValueErrorTy)
      [.egroup (.mk [.etype ValueErrorTy] false false none none false false)]
      false true none none) = true) ∧
    (isErrE (mkRaisesGroup (.eother "5") [] false false none none) = true) := by
  refine ⟨⟨rfl, ?_⟩, ?_, ?_, ?_⟩
  · exact raisesGroup_construction_errors.2.1 IntTy none none rfl
  · exact raisesGroup_construction_errors.2.2.2.2.1 (.etype ValueErrorTy) false
      (some (reCompile "x")) none rfl
  · exact raisesGroup_construction_errors.2.2.2.2.2.1 (.etype ValueErrorTy)
      [.egroup (.mk [.etype ValueErrorTy] false false none none false false)]
      false none none (.mk [.etype ValueErrorTy] false false none none false false)
      (by simp)
  · exact raisesGroup_construction_errors.2.2.2.2.2.2 (.eother "5") [] false
      false none none "5" (by simp)

/-! C5: the scoped-block protocol and the capture handle. -/

/-- C5: the capture-handle protocol. `__enter__` returns an unfilled handle;
`__exit__` returns `handled = true` with the handle filled exactly when an
exception was raised and matched; with no exception, or a non-matching
exception, it raises and the handle is never filled; the handle can be
filled at most once, and reading `.type`, `.value` or `.tb` before the fill
is an error. -/
theorem capture_handle_protocol :
    (RaisesGroup.enterR = (none : ExceptionInfoT)) ∧
    (∀ (rg : RaisesGroup) (et : Option ExcType) (ev : Option Exc)
      (tb : Option Nat) (out : Bool × ExceptionInfoT),
      rg.exitR RaisesGroup.enterR et ev tb = .ok out →
      out.1 = true ∧ out.2.isSome = true) ∧
    (∀ (rg : RaisesGroup) (info : ExceptionInfoT) (ev : Option Exc)
      (tb : Option Nat),
      isErrE (rg.exitR info none ev tb) = true) ∧
    (∀ (rg : RaisesGroup) (info : ExceptionInfoT) (et : ExcType)
      (ev : Option Exc) (tb : Option Nat) (r : Option String),
      rg.matchesR ev = .ok (false, r) →
      isErrE (rg.exitR info (some et) ev tb) = true) ∧
    (∀ (info : ExceptionInfoT) (x : ExcType × Option Exc × Option Nat),
      info.isSome = true →
      isErrE (ExceptionInfo.fill_unfilled info x) = true) ∧
    (isErrE (ExceptionInfo.typeA none) = true ∧
      isErrE (ExceptionInfo.valueA none) = true ∧
      isErrE (ExceptionInfo.tbA none) = true) := by
  refine ⟨rfl, ?_, ?_, ?_, ?_, rfl, rfl, rfl⟩
  · intro rg et ev tb out h
    cases et with
    | none => exact absurd h (by simp [RaisesGroup.exitR])
    | some ety =>
      simp only [RaisesGroup.exitR] at h
      cases hm : rg.matchesR ev with
      | error e => rw [hm] at h; cases h
      | ok br =>
        rw [hm] at h
        obtain ⟨b, r⟩ := br
        cases b with
        | false => cases h
        | true =>
          simp only [RaisesGroup.enterR, ExceptionInfo.for_later,
            ExceptionInfo.fill_unfilled] at h
          cases h
          exact ⟨rfl, rfl⟩
  · intro rg info ev tb
    rfl
  · intro rg info et ev tb r h
    simp only [RaisesGroup.exitR, h]
    rfl
  · intro info x h
    cases info with
    | none => cases h
    | some i => rfl

/-- Witness for C5: a concrete matched exit fills the handle and returns
`handled = true`; a concrete mismatching exit errors. -/
theorem capture_handle_protocol_witness :
    (((true, some (ExceptionGroupTy,
        some (Exc.group ExceptionGroupTy "" [] [.leaf ValueErrorTy "x" []]),
        some 7)) : Bool × ExceptionInfoT).1 = true ∧
      ((true, some (ExceptionGroupTy,
        some (Exc.group ExceptionGroupTy "" [] [.leaf ValueErrorTy "x" []]),
        some 7)) : Bool × ExceptionInfoT).2.isSome = true) ∧
    isErrE ((RaisesGroup.mk [.etype ValueErrorTy] false false none none false
      false).exitR RaisesGroup.enterR (some ExceptionGroupTy)
      (some (.group ExceptionGroupTy "" [] [.leaf TypeErrorTy "x" []]))
      (some 7)) = true :=
  ⟨capture_handle_protocol.2.1
      (RaisesGroup.mk [.etype ValueErrorTy] false false none none false false)
      (some ExceptionGroupTy)
      (some (.group ExceptionGroupTy "" [] [.leaf ValueErrorTy "x" []]))
      (some 7) _ (by rfl),
    capture_handle_protocol.2.2.2.1
      (RaisesGroup.mk [.etype ValueErrorTy] false false none none false false)
      RaisesGroup.enterR ExceptionGroupTy
      (some (.group ExceptionGroupTy "" [] [.leaf TypeErrorTy "x" []]))
      (some 7) _ (by rfl)⟩

/-! C8: the Matcher check pipeline. -/

theorem charsOccur_iff (needle hay : List Char) :
    charsOccur needle hay = true ↔ needle <:+: hay := by
  induction hay with
  | nil =>
    simp only [charsOccur, List.isEmpty_iff]
    constructor
    · intro h; simp [h]
    · intro h
      exact List.eq_nil_of_infix_nil h
  | cons c t ih =>
    simp only [charsOccur, Bool.or_eq_true, List.isPrefixOf_iff_prefix, ih]
    exact (List.infix_cons_iff).symm

theorem parseItems_literal (xs : List Char)
    (h : ∀ c ∈ xs, isRegexSpecial c = false) :
    parseItems xs = xs.map ReItem.lit := by
  induction xs with
  | nil => rfl
  | cons c rest ih =>
    have hc := h c (List.mem_cons_self c rest)
    have h92 : c ≠ Char.ofNat 92 := by
      intro he; rw [he] at hc; simp [isRegexSpecial] at hc
    have h94 : c ≠ Char.ofNat 94 := by
      intro he; rw [he] at hc; simp [isRegexSpecial] at hc
    have h36 : c ≠ Char.ofNat 36 := by
      intro he; rw [he] at hc; simp [isRegexSpecial] at hc
    have h46 : c ≠ Char.ofNat 46 := by
      intro he; rw [he] at hc; simp [isRegexSpecial] at hc
    rw [parseItems.eq_def]
    simp only []
    rw [if_neg h92, if_neg h94, if_neg h36, if_neg h46,
      ih (fun d hd => h d (List.mem_cons_of_mem _ hd))]
    rfl

theorem matchItems_lit_iff (xs : List Char) : ∀ (k : Nat) (hay : List Char),
    matchItems (xs.map ReItem.lit) k hay = true ↔ xs <+: hay.drop k := by
  induction xs with
  | nil => intro k hay; simp [matchItems]
  | cons x rest ih =>
    intro k hay
    simp only [List.map_cons, matchItems]
    cases hd : hay.drop k with
    | nil =>
      simp only []
      constructor
      · intro h; cases h
      · intro h
        have := h.length_le
        simp at this
    | cons c t =>
      have hdt : hay.drop (k + 1) = t := by
        rw [← List.tail_drop, hd]
        rfl
      simp only [Bool.and_eq_true, beq_iff_eq]
      rw [ih (k + 1) hay, hdt]
      exact (List.cons_prefix_cons).symm

theorem reSearch_exists_iff (p : RePattern) (s : String) :
    reSearch p s = true ↔ ∃ k, k ≤ s.toList.length ∧
      matchItems (parseItems p.pattern.toList) k s.toList = true := by
  simp [reSearch, List.any_eq_true, List.mem_range, Nat.lt_succ_iff]

theorem reSearch_literal_iff (p : RePattern) (s : String)
    (h : ∀ c ∈ p.pattern.toList, isRegexSpecial c = false) :
    reSearch p s = true ↔ p.pattern.toList <:+: s.toList := by
  rw [reSearch_exists_iff, parseItems_literal _ h]
  constructor
  · intro ⟨k, hk, hm⟩
    have hpre := (matchItems_lit_iff _ k s.toList).mp hm
    exact hpre.isInfix.trans (s.toList.drop_suffix k).isInfix
  · intro hinf
    obtain ⟨u, v, huv⟩ := hinf
    refine ⟨u.length, ?_, ?_⟩
    · have := congrArg List.length huv
      simp only [List.length_append] at this
      omega
    · rw [matchItems_lit_iff _ _ s.toList, ← huv, List.append_assoc,
        List.drop_left]
      exact List.prefix_append _ _

/-- C8: `Matcher.matches` runs its three checks in the fixed order
type, text pattern, check, skipping unset ones; it succeeds exactly when
every set check passes; the first failing check determines `fail_reason`;
the text-pattern check searches (tries every start position, does not
anchor) the pattern against the rendered text `_stringify_exception e`
(message joined with notes), which for a metacharacter-free pattern is
exactly substring occurrence; on text-pattern failure the escape warning is
appended exactly when the literal pattern string equals the rendered text —
a reachable case, since a pattern with anchors or other metacharacters can
fail to match its own text. -/
theorem matcher_matches_checks (m : Matcher) (e : Exc) :
    ((m.matchesR e).1 = true ↔
      (_check_raw_type m.exception_type e = none ∧
        (∀ p, m.matchPat = some p →
          reSearch p (_stringify_exception e) = true) ∧
        (∀ c, m.check = some c → c.fn e = true))) ∧
    (∀ p, reSearch p (_stringify_exception e) = true ↔
      ∃ k, k ≤ (_stringify_exception e).toList.length ∧
        matchItems (parseItems p.pattern.toList) k
          (_stringify_exception e).toList = true) ∧
    (∀ p, (∀ c ∈ p.pattern.toList, isRegexSpecial c = false) →
      (reSearch p (_stringify_exception e) = true ↔
        p.pattern.toList <:+: (_stringify_exception e).toList)) ∧
    (∀ r, _check_raw_type m.exception_type e = some r →
      m.matchesR e = (false, some r)) ∧
    (∀ p, _check_raw_type m.exception_type e = none → m.matchPat = some p →
      reSearch p (_stringify_exception e) = false →
      m.matchesR e = (false, some (regexFailMsgBase p e ++
        (if _match_pattern_eq p (_stringify_exception e) then escapeWarning
         else "")))) ∧
    (∀ p, _check_raw_type m.exception_type e = none → m.matchPat = some p →
      reSearch p (_stringify_exception e) = false →
      ((m.matchesR e).2 = some (regexFailMsgBase p e ++ escapeWarning) ↔
        (p.flags = _REGEX_NO_FLAGS ∧
          p.pattern = _stringify_exception e))) ∧
    (∀ c, _check_raw_type m.exception_type e = none →
      _check_match m.matchPat e = none → m.check = some c → c.fn e = false →
      m.matchesR e = (false, some "check did not return True")) := by
  have hwarnlen : escapeWarning.length ≠ 0 := by decide
  refine ⟨?_, fun p => reSearch_exists_iff p _,
    fun p hp => reSearch_literal_iff p _ hp, ?_, ?_, ?_, ?_⟩
  · cases hT : _check_raw_type m.exception_type e with
    | some r => simp [Matcher.matchesR, hT]
    | none =>
      cases hP : m.matchPat with
      | none =>
        cases hC : m.check with
        | none => simp [Matcher.matchesR, hT, hP, hC, _check_match, _check_check]
        | some c =>
          cases hf : c.fn e <;>
            simp [Matcher.matchesR, hT, hP, hC, _check_match, _check_check, hf]
      | some p =>
        cases hS : reSearch p (_stringify_exception e) with
        | false =>
          simp only [Matcher.matchesR, hT, hP, _check_match, hS]
          cases hq : _match_pattern_eq p (_stringify_exception e) <;>
            simp [hq, hS, hT, hP]
        | true =>
          cases hC : m.check with
          | none =>
            simp [Matcher.matchesR, hT, hP, hC, _check_match, hS, _check_check]
          | some c =>
            cases hf : c.fn e <;>
              simp [Matcher.matchesR, hT, hP, hC, _check_match, hS,
                _check_check, hf]
  · intro r hr
    simp [Matcher.matchesR, hr]
  · intro p h1 h2 h3
    simp only [Matcher.matchesR, h1, h2, _check_match, h3]
    cases hq : _match_pattern_eq p (_stringify_exception e) <;>
      simp [String.append_empty]
  · intro p h1 h2 h3
    simp only [Matcher.matchesR, h1, h2, _check_match, h3]
    cases hq : _match_pattern_eq p (_stringify_exception e) with
    | true =>
      have hq2 := hq
      simp only [_match_pattern_eq, Bool.and_eq_true, decide_eq_true_eq] at hq2
      simp [hq2]
    | false =>
      have hq2 : ¬(p.flags = _REGEX_NO_FLAGS ∧
          p.pattern = _stringify_exception e) := by
        intro hpe
        have hcontra : _match_pattern_eq p (_stringify_exception e) = true := by
          simp [_match_pattern_eq, hpe.1, hpe.2]
        rw [hcontra] at hq
        cases hq
      simp only [Bool.false_eq_true, if_false, ite_false]
      constructor
      · intro h
        exfalso
        simp only [Option.some.injEq] at h
        have hlen := congrArg String.length h
        rw [String.length_append] at hlen
        omega
      · intro hpe
        exact absurd hpe hq2
  · intro c h1 h2 h3 h4
    simp [Matcher.matchesR, h1, h2, _check_check, h3, h4]

/-- Witness for C8: the pattern-failure reason at a concrete matcher and
exception; the escape warning firing on a pattern whose literal string
equals the rendered text yet whose mid-pattern anchor makes the search
fail; and a concrete failing check. -/
theorem matcher_matches_checks_witness :
    (Matcher.matchesR ⟨some ValueErrorTy, some (reCompile "hello"), none⟩
        (.leaf ValueErrorTy "goodbye" []) =
      (false, some (regexFailMsgBase (reCompile "hello")
          (.leaf ValueErrorTy "goodbye" []) ++
        (if _match_pattern_eq (reCompile "hello")
            (_stringify_exception (.leaf ValueErrorTy "goodbye" []))
         then escapeWarning else "")))) ∧
    (Matcher.matchesR ⟨some ValueErrorTy, some (reCompile "foo$bar"), none⟩
        (.leaf ValueErrorTy "foo$bar" []) =
      (false, some (regexFailMsgBase (reCompile "foo$bar")
          (.leaf ValueErrorTy "foo$bar" []) ++ escapeWarning))) ∧
    (Matcher.matchesR ⟨some ValueErrorTy, none,
        some ⟨fun _ => false, "lam"⟩⟩ (.leaf ValueErrorTy "x" []) =
      (false, some "check did not return True")) :=
  ⟨(matcher_matches_checks ⟨some ValueErrorTy, some (reCompile "hello"), none⟩
      (.leaf ValueErrorTy "goodbye" [])).2.2.2.2.1 (reCompile "hello")
      rfl rfl rfl,
    (matcher_matches_checks
      ⟨some ValueErrorTy, some (reCompile "foo$bar"), none⟩
      (.leaf ValueErrorTy "foo$bar" [])).2.2.2.2.1 (reCompile "foo$bar")
      rfl rfl rfl,
    (matcher_matches_checks ⟨some ValueErrorTy, none,
        some ⟨fun _ => false, "lam"⟩⟩
      (.leaf ValueErrorTy "x" [])).2.2.2.2.2.2
      ⟨fun _ => false, "lam"⟩ rfl rfl rfl rfl⟩

/-! C2: the greedy-limitation scenario. -/

/-- C2: with expected patterns [ValueError, Matcher(ValueError,
match="hello")] against the group [ValueError("hello"),
ValueError("goodbye")], `matches` returns false, even though an alternative
assignment exists: the bare type matches "goodbye" and the matcher matches
"hello". The first, looser pattern greedily claims the "hello" instance. -/
theorem greedy_limitation_scenario :
    mkRaisesGroup (.etype ValueErrorTy)
      [.ematcher ⟨some ValueErrorTy, some (reCompile "hello"), none⟩]
      false false none none =
      .ok (RaisesGroup.mk [.etype ValueErrorTy,
        .ematcher ⟨some ValueErrorTy, some (reCompile "hello"), none⟩]
        false false none none false false) ∧
    (RaisesGroup.mk [.etype ValueErrorTy,
        .ematcher ⟨some ValueErrorTy, some (reCompile "hello"), none⟩]
        false false none none false false).matchesB
      (some (.group ExceptionGroupTy "" []
        [.leaf ValueErrorTy "hello" [], .leaf ValueErrorTy "goodbye" []])) =
      false ∧
    checkExpectedArg (.etype ValueErrorTy) (.leaf ValueErrorTy "goodbye" []) =
      .ok none ∧
    checkExpectedArg
      (.ematcher ⟨some ValueErrorTy, some (reCompile "hello"), none⟩)
      (.leaf ValueErrorTy "hello" []) = .ok none :=
  ⟨rfl, rfl, rfl, rfl⟩

/-! C9: the general-case diagnostic. -/

/-- C9 (code bug): in the general failure case the code reads the result
table with the stale loop variable `i_exp` (the last expected index) instead
of `i_failed`, and looks up `rev_matches[i_actual]` for an actual exception
that was never claimed: with expected [TypeError, ValueError] against the
group [ValueError("a"), ValueError("b")], `matches` raises KeyError instead
of returning false with the described report. -/
theorem general_case_diagnostic_keyerror :
    mkRaisesGroup (.etype TypeErrorTy) [.etype ValueErrorTy]
      false false none none =
      .ok (RaisesGroup.mk [.etype TypeErrorTy, .etype ValueErrorTy]
        false false none none false false) ∧
    (RaisesGroup.mk [.etype TypeErrorTy, .etype ValueErrorTy]
        false false none none false false).matchesR
      (some (.group ExceptionGroupTy "" []
        [.leaf ValueErrorTy "a" [], .leaf ValueErrorTy "b" []])) =
      .error "KeyError: 1" :=
  ⟨rfl, rfl⟩

/-! C3: possible_match. -/

theorem possibleMatchAux_iff (rows : Table) : ∀ used : List Nat,
    possibleMatchAux rows used = true ↔
      ∃ cols : List Nat, cols.length = rows.length ∧ cols.Nodup ∧
        (∀ c ∈ cols, ¬ c ∈ used) ∧
        (∀ k, k < rows.length →
          (rows.getD k []).getD (cols.getD k 0) none = some none) := by
  induction rows with
  | nil =>
    intro used
    simp only [possibleMatchAux, List.length_nil, true_iff]
    exact ⟨[], rfl, List.nodup_nil, by simp, by omega⟩
  | cons row rest ih =>
    intro used
    simp only [possibleMatchAux, List.any_eq_true, List.mem_range,
      Bool.and_eq_true, beq_iff_eq, Bool.not_eq_true']
    constructor
    · rintro ⟨i, hi, ⟨hcell, hnotused⟩, haux⟩
      obtain ⟨cols, hlen, hnodup, hdisj, hcells⟩ := (ih (i :: used)).mp haux
      refine ⟨i :: cols, by simp [hlen], ?_, ?_, ?_⟩
      · refine List.Nodup.cons ?_ hnodup
        intro hmem
        exact (hdisj i hmem) (List.mem_cons_self i used)
      · intro c hc
        rcases List.mem_cons.mp hc with rfl | hc2
        · intro hcu
          simp only [List.contains, List.elem_eq_mem, decide_eq_false_iff_not]
            at hnotused
          exact hnotused hcu
        · intro hcu
          exact (hdisj c hc2) (List.mem_cons_of_mem i hcu)
      · intro k hk
        cases k with
        | zero => simpa using hcell
        | succ k2 =>
          simp only [List.getD_cons_succ, List.length_cons] at *
          exact hcells k2 (by omega)
    · rintro ⟨cols, hlen, hnodup, hdisj, hcells⟩
      cases cols with
      | nil => simp at hlen
      | cons c0 cols2 =>
        have hc0cell := hcells 0 (by simp)
        simp only [List.getD_cons_zero] at hc0cell
        have hc0lt : c0 < row.length := by
          by_contra hge
          rw [List.getD_eq_default _ _ (by omega)] at hc0cell
          cases hc0cell
        refine ⟨c0, hc0lt, ⟨hc0cell, ?_⟩, ?_⟩
        · have hnm := hdisj c0 (List.mem_cons_self c0 cols2)
          simp only [List.contains, List.elem_eq_mem, decide_eq_false_iff_not]
          exact hnm
        · refine (ih (c0 :: used)).mpr ⟨cols2, by simpa using hlen, ?_, ?_, ?_⟩
          · exact (List.nodup_cons.mp hnodup).2
          · intro c hc hmem
            rcases List.mem_cons.mp hmem with rfl | hcu
            · exact (List.nodup_cons.mp hnodup).1 hc
            · exact hdisj c (List.mem_cons_of_mem c0 hc) hcu
          · intro k hk
            have := hcells (k + 1) (by simp only [List.length_cons]; omega)
            simpa using this

/-- C3: `possible_match` on a table returns true exactly when some
assignment pairs every row with a distinct column whose cell is a success
(`some none` models the checked `None` cell); and the boolean verdict of
`_check_exceptions` never depends on the function consulted in place of
`possible_match` — it only affects the diagnostic text. -/
theorem possible_match_correct :
    (∀ results : Table, possible_match results = true ↔
      ∃ cols : List Nat, cols.length = results.length ∧ cols.Nodup ∧
        (∀ k, k < results.length →
          (results.getD k []).getD (cols.getD k 0) none = some none)) ∧
    (∀ (pm : Table → Bool)
      (rowFns : List (Exc → Except String (Option String)))
      (reprs : List String) (actual_exceptions : List Exc),
      Except.map Prod.fst
        (checkExceptionsCore pm rowFns reprs actual_exceptions) =
      Except.map Prod.fst
        (checkExceptionsCore possible_match rowFns reprs
          actual_exceptions)) := by
  constructor
  · intro results
    rw [possible_match, possibleMatchAux_iff]
    constructor
    · rintro ⟨cols, h1, h2, h3, h4⟩
      exact ⟨cols, h1, h2, h4⟩
    · rintro ⟨cols, h1, h2, h4⟩
      exact ⟨cols, h1, h2, by simp, h4⟩
  · intro pm rowFns reprs A
    simp only [checkExceptionsCore]
    repeat first
      | rfl
      | split

/-! C10: fail_reason is set exactly on failure. -/

theorem matchesRF_ok_iff (fuel : Nat) (rg : RaisesGroup) (v : Option Exc)
    (b : Bool) (r : Option String) (h : matchesRF fuel rg v = .ok (b, r)) :
    b = true ↔ r = none := by
  cases fuel with
  | zero => cases h
  | succ f =>
    cases v with
    | none =>
      simp only [matchesRF] at h
      cases h
      simp
    | some exc =>
      simp only [matchesRF] at h
      by_cases hig : isinstanceGroup exc
      · simp only [hig, Bool.not_true, Bool.false_eq_true, if_false,
          ite_false] at h
        cases hfs : rg.flatten_subgroups <;>
          simp only [hfs, Bool.false_eq_true, eq_self_iff_true, if_false,
            if_true, ite_false, ite_true, Bool.not_false, Bool.not_true,
            Bool.false_and, Bool.true_and] at h
        · cases hcm : _check_match rg.matchExpr exc with
          | some old_reason =>
            rw [hcm] at h
            simp only [] at h
            split at h
            · cases h; simp
            · cases h; simp
          | none =>
            rw [hcm] at h
            simp only [] at h
            cases hce : checkExceptionsRF f rg exc.exceptions with
            | error e => rw [hce] at h; simp only [] at h; cases h
            | ok p =>
              rw [hce] at h
              obtain ⟨bb, fr⟩ := p
              cases bb with
              | true =>
                simp only [] at h
                cases hcc : _check_check rg.check exc rg.nested with
                | none => rw [hcc] at h; cases h; simp
                | some rr => rw [hcc] at h; cases h; simp
              | false =>
                cases fr with
                | none => simp only [] at h; cases h
                | some old_reason =>
                  simp only [] at h
                  split at h
                  · cases hce2 : checkExceptionsRF f rg
                        (_unroll_exceptions exc.exceptions) with
                    | error e => rw [hce2] at h; simp only [] at h; cases h
                    | ok p2 =>
                      rw [hce2] at h
                      obtain ⟨b2, fr2⟩ := p2
                      simp only [] at h
                      cases h; simp
                  · cases h; simp
        · cases hcm : _check_match rg.matchExpr exc with
          | some old_reason =>
            rw [hcm] at h
            simp only [] at h
            split at h
            · cases h; simp
            · cases h; simp
          | none =>
            rw [hcm] at h
            simp only [] at h
            cases hce : checkExceptionsRF f rg
                (_unroll_exceptions exc.exceptions) with
            | error e => rw [hce] at h; simp only [] at h; cases h
            | ok p =>
              rw [hce] at h
              obtain ⟨bb, fr⟩ := p
              cases bb with
              | true =>
                simp only [] at h
                cases hcc : _check_check rg.check exc rg.nested with
                | none => rw [hcc] at h; cases h; simp
                | some rr => rw [hcc] at h; cases h; simp
              | false =>
                cases fr with
                | none => simp only [] at h; cases h
                | some old_reason =>
                  simp only [] at h
                  cases h; simp
      · simp only [hig, Bool.not_false, ite_true, if_true] at h
        split at h
        · cases h; simp
        · cases hexp : rg.expected_exceptions with
          | nil => rw [hexp] at h; simp only [] at h; cases h
          | cons e0 tl =>
            rw [hexp] at h
            simp only [] at h
            cases hres : checkExpectedArgF f e0 exc with
            | error e => rw [hres] at h; simp only [] at h; cases h
            | ok res =>
              rw [hres] at h
              simp only [] at h
              split at h
              · cases h; simp
              · split at h
                · cases h; simp
                · split at h
                  · rename_i h1 h2 h3
                    cases h
                    simp only [Bool.and_eq_true, Bool.not_eq_true] at h1 h2
                    constructor
                    · intro hh; cases hh
                    · intro hh
                      subst hh
                      simp at h2
                  · cases h; simp

/-- C10: after any call of `Matcher.matches` or `RaisesGroup.matches` (the
latter modelled as returning its result and final `fail_reason`, since the
attribute is reset to `None` on entry no stale value survives), the
`fail_reason` is `None` exactly when the call returned true. -/
theorem matches_fail_reason_iff :
    (∀ (m : Matcher) (e : Exc),
      (m.matchesR e).1 = true ↔ (m.matchesR e).2 = none) ∧
    (∀ (rg : RaisesGroup) (v : Option Exc) (b : Bool) (r : Option String),
      rg.matchesR v = .ok (b, r) → (b = true ↔ r = none)) := by
  constructor
  · intro m e
    unfold Matcher.matchesR
    split
    · simp
    · split
      · simp
      · split <;> simp
  · intro rg v b r h
    exact matchesRF_ok_iff _ rg v b r h

/-- Witness for C10 at a concrete successful and a concrete failing call. -/
theorem matches_fail_reason_iff_witness :
    ((true : Bool) = true ↔ (none : Option String) = none) ∧
    ((false : Bool) = true ↔
      (some "exception is None" : Option String) = none) :=
  ⟨matches_fail_reason_iff.2
      (RaisesGroup.mk [.etype ValueErrorTy] false false none none false false)
      (some (.group ExceptionGroupTy "" [] [.leaf ValueErrorTy "x" []]))
      true none (by rfl),
    matches_fail_reason_iff.2
      (RaisesGroup.mk [.etype ValueErrorTy] false false none none false false)
      none false (some "exception is None") (by rfl)⟩

/-! C1: the greedy pairing. -/

theorem scanRemaining_some {ch : Nat → Except String (Option String)}
    {i_exp : Nat} : ∀ {rem : List Nat} {tbl tbl' : Table} {j : Nat},
    scanRemaining ch i_exp rem tbl = .ok (some j, tbl') →
    j ∈ rem ∧ ch j = .ok none := by
  intro rem
  induction rem with
  | nil => intro tbl tbl' j h; cases h
  | cons k rest ih =>
    intro tbl tbl' j h
    simp only [scanRemaining] at h
    cases hc : ch k with
    | error e => rw [hc] at h; cases h
    | ok res =>
      rw [hc] at h
      cases res with
      | none =>
        simp only [] at h
        cases h
        exact ⟨List.mem_cons_self k rest, hc⟩
      | some s =>
        simp only [] at h
        obtain ⟨hj, hchj⟩ := ih h
        exact ⟨List.mem_cons_of_mem _ hj, hchj⟩

theorem greedyLoop_perm {chk : Nat → Nat → Except String (Option String)} :
    ∀ {exps rem : List Nat} {tbl : Table} {out : GreedyResult},
    greedyLoop chk exps rem tbl = .ok out →
    (out.pairs.map Prod.snd ++ out.remaining_actual).Perm rem := by
  intro exps
  induction exps with
  | nil =>
    intro rem tbl out h
    cases h
    simp
  | cons i rest ih =>
    intro rem tbl out h
    simp only [greedyLoop] at h
    cases hscan : scanRemaining (chk i) i rem tbl with
    | error e => rw [hscan] at h; cases h
    | ok p =>
      rw [hscan] at h
      obtain ⟨oj, tbl'⟩ := p
      cases oj with
      | some j =>
        simp only [] at h
        cases hrec : greedyLoop chk rest (rem.erase j) tbl' with
        | error e => rw [hrec] at h; cases h
        | ok out' =>
          rw [hrec] at h
          simp only [Except.map] at h
          cases h
          simp only [List.map_cons, List.cons_append]
          exact ((ih hrec).cons j).trans
            (List.perm_cons_erase (scanRemaining_some hscan).1).symm
      | none =>
        simp only [] at h
        cases hrec : greedyLoop chk rest rem tbl' with
        | error e => rw [hrec] at h; cases h
        | ok out' =>
          rw [hrec] at h
          simp only [Except.map] at h
          cases h
          simpa using ih hrec

theorem greedyLoop_fst_sub {chk : Nat → Nat → Except String (Option String)} :
    ∀ {exps rem : List Nat} {tbl : Table} {out : GreedyResult},
    greedyLoop chk exps rem tbl = .ok out →
    ∀ x ∈ out.pairs.map Prod.fst, x ∈ exps := by
  intro exps
  induction exps with
  | nil => intro rem tbl out h; cases h; simp
  | cons i rest ih =>
    intro rem tbl out h x hx
    simp only [greedyLoop] at h
    cases hscan : scanRemaining (chk i) i rem tbl with
    | error e => rw [hscan] at h; cases h
    | ok p =>
      rw [hscan] at h
      obtain ⟨oj, tbl'⟩ := p
      cases oj with
      | some j =>
        simp only [] at h
        cases hrec : greedyLoop chk rest (rem.erase j) tbl' with
        | error e => rw [hrec] at h; cases h
        | ok out' =>
          rw [hrec] at h
          simp only [Except.map] at h
          cases h
          simp only [List.map_cons, List.mem_cons] at hx
          rcases hx with rfl | hx2
          · exact List.mem_cons_self _ _
          · exact List.mem_cons_of_mem _ (ih hrec _ hx2)
      | none =>
        simp only [] at h
        cases hrec : greedyLoop chk rest rem tbl' with
        | error e => rw [hrec] at h; cases h
        | ok out' =>
          rw [hrec] at h
          simp only [Except.map] at h
          cases h
          exact List.mem_cons_of_mem _ (ih hrec _ hx)

theorem greedyLoop_failed_nil {chk : Nat → Nat → Except String (Option String)} :
    ∀ {exps rem : List Nat} {tbl : Table} {out : GreedyResult},
    greedyLoop chk exps rem tbl = .ok out →
    out.failed_expected = [] → out.pairs.map Prod.fst = exps := by
  intro exps
  induction exps with
  | nil => intro rem tbl out h hf; cases h; simp
  | cons i rest ih =>
    intro rem tbl out h hf
    simp only [greedyLoop] at h
    cases hscan : scanRemaining (chk i) i rem tbl with
    | error e => rw [hscan] at h; cases h
    | ok p =>
      rw [hscan] at h
      obtain ⟨oj, tbl'⟩ := p
      cases oj with
      | some j =>
        simp only [] at h
        cases hrec : greedyLoop chk rest (rem.erase j) tbl' with
        | error e => rw [hrec] at h; cases h
        | ok out' =>
          rw [hrec] at h
          simp only [Except.map] at h
          cases h
          simp only [List.map_cons]
          rw [ih hrec hf]
      | none =>
        simp only [] at h
        cases hrec : greedyLoop chk rest rem tbl' with
        | error e => rw [hrec] at h; cases h
        | ok out' =>
          rw [hrec] at h
          simp only [Except.map] at h
          cases h
          cases hf

theorem greedyLoop_fst_all {chk : Nat → Nat → Except String (Option String)} :
    ∀ {exps rem : List Nat} {tbl : Table} {out : GreedyResult},
    greedyLoop chk exps rem tbl = .ok out → exps.Nodup →
    out.pairs.map Prod.fst = exps → out.failed_expected = [] := by
  intro exps
  induction exps with
  | nil => intro rem tbl out h hnd hfst; cases h; rfl
  | cons i rest ih =>
    intro rem tbl out h hnd hfst
    simp only [greedyLoop] at h
    cases hscan : scanRemaining (chk i) i rem tbl with
    | error e => rw [hscan] at h; cases h
    | ok p =>
      rw [hscan] at h
      obtain ⟨oj, tbl'⟩ := p
      cases oj with
      | some j =>
        simp only [] at h
        cases hrec : greedyLoop chk rest (rem.erase j) tbl' with
        | error e => rw [hrec] at h; cases h
        | ok out' =>
          rw [hrec] at h
          simp only [Except.map] at h
          cases h
          simp only [List.map_cons, List.cons.injEq] at hfst
          exact @ih (rem.erase j) tbl' out' hrec (List.nodup_cons.mp hnd).2
            hfst.2
      | none =>
        simp only [] at h
        cases hrec : greedyLoop chk rest rem tbl' with
        | error e => rw [hrec] at h; cases h
        | ok out' =>
          rw [hrec] at h
          simp only [Except.map] at h
          cases h
          exfalso
          simp only at hfst
          have hmem : i ∈ out'.pairs.map Prod.fst := by
            rw [hfst]
            exact List.mem_cons_self i rest
          have := greedyLoop_fst_sub hrec i hmem
          exact (List.nodup_cons.mp hnd).1 this

theorem greedyLoop_pairs_sat {chk : Nat → Nat → Except String (Option String)} :
    ∀ {exps rem : List Nat} {tbl : Table} {out : GreedyResult},
    greedyLoop chk exps rem tbl = .ok out →
    ∀ p ∈ out.pairs, chk p.1 p.2 = .ok none := by
  intro exps
  induction exps with
  | nil => intro rem tbl out h p hp; cases h; cases hp
  | cons i rest ih =>
    intro rem tbl out h p hp
    simp only [greedyLoop] at h
    cases hscan : scanRemaining (chk i) i rem tbl with
    | error e => rw [hscan] at h; cases h
    | ok q =>
      rw [hscan] at h
      obtain ⟨oj, tbl'⟩ := q
      cases oj with
      | some j =>
        simp only [] at h
        cases hrec : greedyLoop chk rest (rem.erase j) tbl' with
        | error e => rw [hrec] at h; cases h
        | ok out' =>
          rw [hrec] at h
          simp only [Except.map] at h
          cases h
          simp only [List.mem_cons] at hp
          rcases hp with rfl | hp2
          · exact (scanRemaining_some hscan).2
          · exact @ih (rem.erase j) tbl' out' hrec p hp2
      | none =>
        simp only [] at h
        cases hrec : greedyLoop chk rest rem tbl' with
        | error e => rw [hrec] at h; cases h
        | ok out' =>
          rw [hrec] at h
          simp only [Except.map] at h
          cases h
          exact @ih rem tbl' out' hrec p (by simpa using hp)

theorem checkExceptionsR_def2 (rg : RaisesGroup) (A : List Exc) :
    rg.checkExceptionsR A =
      checkExceptionsCore possible_match rg.rowFns rg.reprsOf A := rfl

theorem checkExceptionsCore_true_iff (pm : Table → Bool)
    (rowFns : List (Exc → Except String (Option String)))
    (reprs : List String) (A : List Exc) (g : GreedyResult)
    (hg : greedyLoop (mkChk rowFns A) (List.range rowFns.length)
      (List.range A.length)
      (ResultHolder.init rowFns.length A.length) = .ok g) :
    (∃ r, checkExceptionsCore pm rowFns reprs A = .ok (true, r)) ↔
      (g.remaining_actual.isEmpty && g.failed_expected.isEmpty) = true := by
  simp only [checkExceptionsCore]
  rw [hg]
  by_cases hcond :
      (g.remaining_actual.isEmpty && g.failed_expected.isEmpty) = true
  · simp [hcond]
  · simp only [hcond, Bool.false_eq_true, if_false, ite_false, iff_false]
    rintro ⟨r, hr⟩
    split at hr
    · cases hr
    · split at hr
      · cases hr
      · split at hr
        · cases hr
        · split at hr
          · cases hr
          · split at hr
            · split at hr
              · cases hr
              · cases hr
            · split at hr
              · cases hr
              · split at hr
                · cases hr
                · cases hr

/-- C1: the pairing of `_check_exceptions` is greedy and expected-first (the
greedy pass `greedyLoop` scans, for each expected index in declared order,
the remaining actual indexes in original order, records every attempted pair
in the result table, and claims the first success); given that the greedy
pass completes, `_check_exceptions` succeeds exactly when the claimed pairs
form a perfect bijection: every expected index claimed an actual index (in
order, `map fst = range n`) and the claimed actual indexes are exactly all
actual indexes (`map snd` is a permutation of `range m`); and every claimed
pair is a satisfied check. -/
theorem check_exceptions_greedy_pairing (rg : RaisesGroup) (A : List Exc)
    (g : GreedyResult) (hrun : greedyRunOf rg A = .ok g) :
    ((∃ r, rg.checkExceptionsR A = .ok (true, r)) ↔
      (g.pairs.map Prod.fst = List.range rg.expected_exceptions.length ∧
        (g.pairs.map Prod.snd).Perm (List.range A.length))) ∧
    (∀ p ∈ g.pairs, rg.chkOf A p.1 p.2 = .ok none) := by
  have hg : greedyLoop (mkChk rg.rowFns A) (List.range rg.rowFns.length)
      (List.range A.length)
      (ResultHolder.init rg.rowFns.length A.length) = .ok g := hrun
  have hlen : rg.rowFns.length = rg.expected_exceptions.length := by
    simp [RaisesGroup.rowFns]
  constructor
  · rw [checkExceptionsR_def2]
    rw [checkExceptionsCore_true_iff possible_match rg.rowFns rg.reprsOf A g hg]
    constructor
    · intro hc
      simp only [Bool.and_eq_true, List.isEmpty_iff] at hc
      constructor
      · rw [← hlen]
        exact greedyLoop_failed_nil hg hc.2
      · have hperm := greedyLoop_perm hg
        rw [hc.1, List.append_nil] at hperm
        exact hperm
    · rintro ⟨h1, h2⟩
      have hfailed : g.failed_expected = [] :=
        greedyLoop_fst_all hg (List.nodup_range _) (by rw [h1, hlen])
      have hperm := greedyLoop_perm hg
      have hlen2 := hperm.length_eq
      simp only [List.length_append, List.length_map, List.length_range]
        at hlen2
      have hlen3 := h2.length_eq
      simp only [List.length_map, List.length_range] at hlen3
      have hremnil : g.remaining_actual = [] :=
        List.eq_nil_of_length_eq_zero (by omega)
      simp [hremnil, hfailed]
  · exact fun p hp => greedyLoop_pairs_sat hg p hp

/-- Witness for C1 at a one-pattern, one-exception run of the greedy pass. -/
theorem check_exceptions_greedy_pairing_witness :
    ((∃ r, (RaisesGroup.mk [.etype ValueErrorTy] false false none none false
        false).checkExceptionsR [.leaf ValueErrorTy "x" []] = .ok (true, r)) ↔
      (([((0 : Nat), (0 : Nat))].map Prod.fst = List.range 1) ∧
        ([((0 : Nat), (0 : Nat))].map Prod.snd).Perm (List.range 1))) ∧
    (∀ p ∈ [((0 : Nat), (0 : Nat))],
      (RaisesGroup.mk [.etype ValueErrorTy] false false none none false
        false).chkOf [.leaf ValueErrorTy "x" []] p.1 p.2 = .ok none) :=
  check_exceptions_greedy_pairing
    (RaisesGroup.mk [.etype ValueErrorTy] false false none none false false)
    [.leaf ValueErrorTy "x" []] ⟨[], [], [(0, 0)], [[some none]]⟩ (by rfl)

/-! C6: allow_unwrapped on a lone exception. -/

theorem unwrapped_etype_eval (t : ExcType) (e : Exc) (ib nb : Bool)
    (hel : isinstanceGroup e = false) :
    (RaisesGroup.mk [.etype t] true false none none ib nb).matchesB (some e) =
      (_check_raw_type (some t) e).isNone := by
  cases hres : _check_raw_type (some t) e <;>
    simp [RaisesGroup.matchesB, RaisesGroup.matchesR, matchesRF,
      checkExpectedArgF, hel, fuelM, RaisesGroup.psize, ExpectedArg.psize,
      listPsize, RaisesGroup.expected_exceptions, RaisesGroup.allow_unwrapped,
      hres]

theorem wrapped_etype_eval (t : ExcType) (e : Exc) (ib nb : Bool)
    (gt : ExcType) (gm : String) (gn : List String)
    (hel : isinstanceGroup e = false)
    (hg : isinstanceGroup (.group gt gm gn [e]) = true) :
    (RaisesGroup.mk [.etype t] false false none none ib nb).matchesB
      (some (.group gt gm gn [e])) = (_check_raw_type (some t) e).isNone := by
  cases hres : _check_raw_type (some t) e <;>
    simp [RaisesGroup.matchesB, RaisesGroup.matchesR, matchesRF,
      checkExpectedArgF, checkExceptionsRF, checkExceptionsCore, greedyLoop,
      scanRemaining, mkChk, ResultHolder.init, hel, hg, fuelM,
      RaisesGroup.psize, ExpectedArg.psize, listPsize,
      RaisesGroup.expected_exceptions, RaisesGroup.allow_unwrapped,
      RaisesGroup.flatten_subgroups, RaisesGroup.matchExpr, RaisesGroup.check,
      RaisesGroup.nested, Exc.exceptions, _check_match, _check_check,
      ExpectedArg.isEGroup, hres, getCell, setResult,
      RaisesGroup._repr_expected, Except.map, List.range_succ, List.range_zero,
      List.erase_cons_head, List.erase_nil]

theorem unwrapped_ematcher_eval (m : Matcher) (e : Exc) (ib nb : Bool)
    (hel : isinstanceGroup e = false) :
    (RaisesGroup.mk [.ematcher m] true false none none ib nb).matchesB
      (some e) = (m.matchesR e).1 := by
  rcases hm : m.matchesR e with ⟨b, fr⟩
  cases b <;> cases fr <;>
    simp [RaisesGroup.matchesB, RaisesGroup.matchesR, matchesRF,
      checkExpectedArgF, hel, fuelM, RaisesGroup.psize, ExpectedArg.psize,
      listPsize, RaisesGroup.expected_exceptions, RaisesGroup.allow_unwrapped,
      hm]

theorem wrapped_ematcher_eval (m : Matcher) (e : Exc) (ib nb : Bool)
    (gt : ExcType) (gm : String) (gn : List String)
    (hel : isinstanceGroup e = false)
    (hg : isinstanceGroup (.group gt gm gn [e]) = true) :
    (RaisesGroup.mk [.ematcher m] false false none none ib nb).matchesB
      (some (.group gt gm gn [e])) = (m.matchesR e).1 := by
  rcases hm : m.matchesR e with ⟨b, fr⟩
  cases b <;> cases fr <;>
    simp [RaisesGroup.matchesB, RaisesGroup.matchesR, matchesRF,
      checkExpectedArgF, checkExceptionsRF, checkExceptionsCore, greedyLoop,
      scanRemaining, mkChk, ResultHolder.init, hel, hg, fuelM,
      RaisesGroup.psize, ExpectedArg.psize, listPsize,
      RaisesGroup.expected_exceptions, RaisesGroup.allow_unwrapped,
      RaisesGroup.flatten_subgroups, RaisesGroup.matchExpr, RaisesGroup.check,
      RaisesGroup.nested, Exc.exceptions, _check_match, _check_check,
      ExpectedArg.isEGroup, hm, getCell, setResult,
      RaisesGroup._repr_expected, Except.map, List.range_succ, List.range_zero,
      List.erase_cons_head, List.erase_nil]

/-- C6: with a single expected pattern P (a type or a Matcher),
`RaisesGroup(P, allow_unwrapped=True).matches(e)` on a lone (non-group)
exception returns true exactly when `RaisesGroup(P).matches(g)` does, where
`g` is a one-element exception group wrapping `e`. -/
theorem raisesGroup_allow_unwrapped_iff (P : ExpectedArg) (e : Exc)
    (hP : (∃ t, P = .etype t) ∨ (∃ m, P = .ematcher m))
    (hel : isinstanceGroup e = false)
    (gt : ExcType) (gm : String) (gn : List String)
    (hg : isinstanceGroup (.group gt gm gn [e]) = true)
    (ib1 nb1 ib2 nb2 : Bool) :
    (RaisesGroup.mk [P] true false none none ib1 nb1).matchesB (some e) =
      (RaisesGroup.mk [P] false false none none ib2 nb2).matchesB
        (some (.group gt gm gn [e])) := by
  rcases hP with ⟨t, rfl⟩ | ⟨m, rfl⟩
  · rw [unwrapped_etype_eval t e ib1 nb1 hel,
      wrapped_etype_eval t e ib2 nb2 gt gm gn hel hg]
  · rw [unwrapped_ematcher_eval m e ib1 nb1 hel,
      wrapped_ematcher_eval m e ib2 nb2 gt gm gn hel hg]

/-- Witness for C6 at a concrete pattern, exception and wrapper group. -/
theorem raisesGroup_allow_unwrapped_iff_witness :
    (RaisesGroup.mk [.etype ValueErrorTy] true false none none false
        false).matchesB (some (.leaf ValueErrorTy "x" [])) =
      (RaisesGroup.mk [.etype ValueErrorTy] false false none none false
        false).matchesB
        (some (.group ExceptionGroupTy "" [] [.leaf ValueErrorTy "x" []])) :=
  raisesGroup_allow_unwrapped_iff (.etype ValueErrorTy)
    (.leaf ValueErrorTy "x" []) (Or.inl ⟨ValueErrorTy, rfl⟩) rfl
    ExceptionGroupTy "" [] rfl false false false false

theorem matchesB_group_iff (expected : List ExpectedArg) (ib nb : Bool)
    (gt : ExcType) (gm : String) (gn : List String) (A : List Exc)
    (hg : isinstanceGroup (.group gt gm gn A) = true) :
    ((RaisesGroup.mk expected false false none none ib nb).matchesB
      (some (.group gt gm gn A)) = true) ↔
    (∃ r, (RaisesGroup.mk expected false false none none ib nb).checkExceptionsR
      A = .ok (true, r)) := by
  have hid : ∀ B : List Exc, checkExceptionsRF
      (3 * (RaisesGroup.mk expected false false none none ib nb).psize + 2)
      (RaisesGroup.mk expected false false none none ib nb) B =
      (RaisesGroup.mk expected false false none none ib nb).checkExceptionsR
        B := fun B => rfl
  have hsucc : fuelM (RaisesGroup.mk expected false false none none ib nb) =
      (3 * (RaisesGroup.mk expected false false none none ib nb).psize + 2) +
        1 := rfl
  simp only [RaisesGroup.matchesB, RaisesGroup.matchesR, hsucc, matchesRF, hg,
    Bool.not_true, Bool.false_eq_true, if_false, ite_false,
    RaisesGroup.flatten_subgroups, RaisesGroup.matchExpr, RaisesGroup.check,
    RaisesGroup.nested, Exc.exceptions, _check_match, _check_check]
  rw [hid A]
  cases hce : (RaisesGroup.mk expected false false none none ib
      nb).checkExceptionsR A with
  | error e => simp [hce]
  | ok p =>
    obtain ⟨b, fr⟩ := p
    cases b with
    | true => simp
    | false =>
      cases fr with
      | none => simp
      | some old_reason =>
        simp only []
        by_cases hretry : (!false &&
            !(RaisesGroup.mk expected false false none none ib
              nb).expected_exceptions.any ExpectedArg.isEGroup &&
            A.any isinstanceGroup) = true
        · rw [if_pos hretry, hid (_unroll_exceptions A)]
          cases hce2 : (RaisesGroup.mk expected false false none none ib
              nb).checkExceptionsR (_unroll_exceptions A) with
          | error e => simp [hce2, hce]
          | ok p2 => obtain ⟨b2, f2⟩ := p2; simp [hce2, hce]
        · rw [if_neg hretry]
          simp [hce]

/-- A pairwise check succeeded (`.ok none`). -/
def isOkNone (x : Except String (Option String)) : Bool :=
  match x with | .ok none => true | _ => false

theorem isOkNone_iff (x : Except String (Option String)) :
    isOkNone x = true ↔ x = .ok none := by
  cases x with
  | error e => simp [isOkNone]
  | ok v => cases v <;> simp [isOkNone]

theorem check_raw_type_none_iff (t : ExcType) (e : Exc) :
    _check_raw_type (some t) e = none ↔ isinstance e t = true := by
  unfold _check_raw_type
  cases hi : isinstance e t <;> simp [hi]
  split <;> simp

theorem scanRemaining_none {ch : Nat → Except String (Option String)}
    {i_exp : Nat} : ∀ {rem : List Nat} {tbl tbl' : Table},
    scanRemaining ch i_exp rem tbl = .ok (none, tbl') →
    ∀ j ∈ rem, ch j ≠ .ok none := by
  intro rem
  induction rem with
  | nil => intro tbl tbl' h j hj; cases hj
  | cons k rest ih =>
    intro tbl tbl' h j hj
    simp only [scanRemaining] at h
    cases hc : ch k with
    | error e => rw [hc] at h; cases h
    | ok res =>
      rw [hc] at h
      cases res with
      | none => simp only [] at h; cases h
      | some s =>
        simp only [] at h
        rcases List.mem_cons.mp hj with rfl | hj2
        · rw [hc]; simp
        · exact ih h j hj2

theorem scanRemaining_total {ch : Nat → Except String (Option String)}
    {i_exp : Nat} : ∀ {rem : List Nat} {tbl : Table},
    (∀ j ∈ rem, ∃ v, ch j = .ok v) →
    ∃ oj tbl', scanRemaining ch i_exp rem tbl = .ok (oj, tbl') := by
  intro rem
  induction rem with
  | nil => intro tbl hv; exact ⟨none, tbl, rfl⟩
  | cons k rest ih =>
    intro tbl hv
    obtain ⟨v, hvk⟩ := hv k (List.mem_cons_self k rest)
    cases v with
    | none =>
      exact ⟨some k, setResult tbl i_exp k none, by
        simp only [scanRemaining, hvk]⟩
    | some s =>
      obtain ⟨oj, tbl', hrec⟩ :=
        @ih (setResult tbl i_exp k (some s))
          (fun j hj => hv j (List.mem_cons_of_mem _ hj))
      exact ⟨oj, tbl', by simp only [scanRemaining, hvk]; exact hrec⟩

theorem greedyLoop_total {chk : Nat → Nat → Except String (Option String)} :
    ∀ {exps rem : List Nat} {tbl : Table},
    (∀ i ∈ exps, ∀ j ∈ rem, ∃ v, chk i j = .ok v) →
    ∃ out, greedyLoop chk exps rem tbl = .ok out := by
  intro exps
  induction exps with
  | nil => intro rem tbl hv; exact ⟨⟨rem, [], [], tbl⟩, rfl⟩
  | cons i rest ih =>
    intro rem tbl hv
    obtain ⟨oj, tbl', hscan⟩ :=
      @scanRemaining_total (chk i) i rem tbl
        (fun j hj => hv i (List.mem_cons_self i rest) j hj)
    cases oj with
    | some j =>
      obtain ⟨out', hrec⟩ := @ih (rem.erase j) tbl'
        (fun i2 hi2 j2 hj2 => hv i2 (List.mem_cons_of_mem _ hi2) j2
          (List.mem_of_mem_erase hj2))
      exact ⟨{ out' with pairs := (i, j) :: out'.pairs }, by
        simp only [greedyLoop, hscan, hrec, Except.map]⟩
    | none =>
      obtain ⟨out', hrec⟩ := @ih rem tbl'
        (fun i2 hi2 j2 hj2 => hv i2 (List.mem_cons_of_mem _ hi2) j2 hj2)
      exact ⟨{ out' with failed_expected := i :: out'.failed_expected }, by
        simp only [greedyLoop, hscan, hrec, Except.map]⟩

theorem greedy_success_phi {chk : Nat → Nat → Except String (Option String)}
    {exps rem : List Nat} {tbl : Table} {out : GreedyResult}
    (hrun : greedyLoop chk exps rem tbl = .ok out)
    (hnd : exps.Nodup)
    (huniq : ∀ j ∈ rem, ∀ i1 ∈ exps, ∀ i2 ∈ exps,
      chk i1 j = .ok none → chk i2 j = .ok none → i1 = i2)
    (hrem : out.remaining_actual = []) (hfail : out.failed_expected = []) :
    (∀ i ∈ exps, rem.countP (fun j => isOkNone (chk i j)) = 1) ∧
      (∀ j ∈ rem, ∃ i ∈ exps, chk i j = .ok none) := by
  have hfst := greedyLoop_failed_nil hrun hfail
  have hperm0 := greedyLoop_perm hrun
  rw [hrem, List.append_nil] at hperm0
  have hsat := greedyLoop_pairs_sat hrun
  constructor
  · intro i hi
    have h1 : rem.countP (fun j => isOkNone (chk i j)) =
        (out.pairs.map Prod.snd).countP (fun j => isOkNone (chk i j)) :=
      (hperm0.countP_eq _).symm
    rw [h1, List.countP_map]
    have h2 : out.pairs.countP
        ((fun j => isOkNone (chk i j)) ∘ Prod.snd) =
        out.pairs.countP (fun p => decide (p.1 = i)) := by
      apply List.countP_congr
      intro p hp
      have hpsat := hsat p hp
      have hp1 : p.1 ∈ exps := by
        rw [← hfst]; exact List.mem_map_of_mem Prod.fst hp
      have hp2 : p.2 ∈ rem := hperm0.mem_iff.mp (List.mem_map_of_mem Prod.snd hp)
      show isOkNone (chk i p.2) = true ↔ decide (p.1 = i) = true
      rw [isOkNone_iff, decide_eq_true_eq]
      constructor
      · intro hc
        exact huniq p.2 hp2 p.1 hp1 i hi hpsat hc
      · intro hpi
        exact hpi ▸ hpsat
    rw [h2]
    have h3 : out.pairs.countP (fun p => decide (p.1 = i)) =
        (out.pairs.map Prod.fst).countP (fun x => decide (x = i)) := by
      rw [List.countP_map]; rfl
    rw [h3, hfst]
    have h4 : exps.countP (fun x => decide (x = i)) =
        exps.countP (fun x => x == i) := by
      apply List.countP_congr
      intro x hx
      simp
    rw [h4]
    exact List.count_eq_one_of_mem hnd hi
  · intro j hj
    have hj2 : j ∈ out.pairs.map Prod.snd := hperm0.mem_iff.mpr hj
    obtain ⟨p, hp, hpj⟩ := List.mem_map.mp hj2
    refine ⟨p.1, ?_, ?_⟩
    · rw [← hfst]; exact List.mem_map_of_mem Prod.fst hp
    · rw [← hpj] at *; exact hsat p hp

theorem greedy_phi_success {chk : Nat → Nat → Except String (Option String)} :
    ∀ {exps rem : List Nat} {tbl : Table} {out : GreedyResult},
    greedyLoop chk exps rem tbl = .ok out →
    exps.Nodup → rem.Nodup →
    (∀ j ∈ rem, ∀ i1 ∈ exps, ∀ i2 ∈ exps,
      chk i1 j = .ok none → chk i2 j = .ok none → i1 = i2) →
    (∀ i ∈ exps, rem.countP (fun j => isOkNone (chk i j)) = 1) →
    (∀ j ∈ rem, ∃ i ∈ exps, chk i j = .ok none) →
    out.remaining_actual = [] ∧ out.failed_expected = [] := by
  intro exps
  induction exps with
  | nil =>
    intro rem tbl out hrun hnde hndr huniq hcnt hcov
    cases hrun
    have : rem = [] := by
      apply List.eq_nil_iff_forall_not_mem.mpr
      intro j hj
      obtain ⟨i, hi, _⟩ := hcov j hj
      cases hi
    exact ⟨this, rfl⟩
  | cons i rest ih =>
    intro rem tbl out hrun hnde hndr huniq hcnt hcov
    have hi0 : i ∈ i :: rest := List.mem_cons_self i rest
    have hcnti := hcnt i hi0
    have hpos : 0 < rem.countP (fun j => isOkNone (chk i j)) := by omega
    obtain ⟨jstar, hjstar, hpjstar⟩ := List.countP_pos_iff.mp hpos
    simp only [greedyLoop] at hrun
    cases hscan : scanRemaining (chk i) i rem tbl with
    | error e => rw [hscan] at hrun; cases hrun
    | ok p =>
      obtain ⟨oj, tbl'⟩ := p
      rw [hscan] at hrun
      cases oj with
      | none =>
        exact absurd ((isOkNone_iff _).mp hpjstar)
          (scanRemaining_none hscan jstar hjstar)
      | some j1 =>
        obtain ⟨hj1mem, hj1chk⟩ := scanRemaining_some hscan
        simp only [Except.map] at hrun
        cases hrec : greedyLoop chk rest (rem.erase j1) tbl' with
        | error e => rw [hrec] at hrun; cases hrun
        | ok out' =>
          rw [hrec] at hrun
          simp only [] at hrun
          have hpermr : rem.Perm (j1 :: rem.erase j1) :=
            List.perm_cons_erase hj1mem
          have hih : out'.remaining_actual = [] ∧
              out'.failed_expected = [] := by
            apply ih hrec (List.Nodup.of_cons hnde) (hndr.erase j1)
            · intro j hj i1 hi1 i2 hi2 h1 h2
              exact huniq j (List.mem_of_mem_erase hj)
                i1 (List.mem_cons_of_mem _ hi1)
                i2 (List.mem_cons_of_mem _ hi2) h1 h2
            · intro i2 hi2
              have hc2 := hcnt i2 (List.mem_cons_of_mem _ hi2)
              rw [hpermr.countP_eq, List.countP_cons] at hc2
              have hne : isOkNone (chk i2 j1) = false := by
                cases hb : isOkNone (chk i2 j1) with
                | false => rfl
                | true =>
                  have heq : i2 = i := huniq j1 hj1mem
                    i2 (List.mem_cons_of_mem _ hi2) i hi0
                    ((isOkNone_iff _).mp hb) hj1chk
                  rw [heq] at hi2
                  exact absurd hi2 ((List.nodup_cons.mp hnde).1)
              rw [hne] at hc2
              simpa using hc2
            · intro j hj
              have hjrem : j ∈ rem := List.mem_of_mem_erase hj
              have hjne : j ≠ j1 := (List.Nodup.mem_erase_iff hndr).mp hj |>.1
              obtain ⟨i0, hi0m, hchk0⟩ := hcov j hjrem
              rcases List.mem_cons.mp hi0m with rfl | hi0r
              · exfalso
                have hc1 := hcnt i0 hi0
                rw [hpermr.countP_eq, List.countP_cons] at hc1
                have ht : isOkNone (chk i0 j1) = true :=
                  (isOkNone_iff _).mpr hj1chk
                rw [ht] at hc1
                simp only [if_true] at hc1
                have hz : (rem.erase j1).countP
                    (fun j => isOkNone (chk i0 j)) = 0 := by omega
                have hposj : 0 < (rem.erase j1).countP
                    (fun j => isOkNone (chk i0 j)) :=
                  List.countP_pos_iff.mpr ⟨j, hj, (isOkNone_iff _).mpr hchk0⟩
                omega
              · exact ⟨i0, hi0r, hchk0⟩
          cases hrun
          exact ⟨hih.1, hih.2⟩

theorem countP_range_getD {α : Type} (A : List α) (d : α) (p : α → Bool) :
    (List.range A.length).countP (fun j => p (A.getD j d)) = A.countP p := by
  induction A using List.reverseRecOn with
  | nil => rfl
  | append_singleton B x ih =>
    have hlen : (B ++ [x]).length = B.length + 1 := by simp
    rw [hlen, List.range_succ, List.countP_append, List.countP_append]
    have h1 : (List.range B.length).countP
        (fun j => p ((B ++ [x]).getD j d)) =
        (List.range B.length).countP (fun j => p (B.getD j d)) := by
      apply List.countP_congr
      intro j hj
      rw [List.getD_append _ _ _ _ (List.mem_range.mp hj)]
    have h2 : (B ++ [x]).getD B.length d = x := by
      rw [List.getD_eq_getElem _ _ (by simp)]
      exact List.getElem_concat_length B x _ rfl (by simp)
    rw [h1, ih]
    simp only [List.countP_cons, List.countP_nil, Nat.zero_add]
    rw [h2]

theorem forall_range_getD {α : Type} (A : List α) (d : α) (Q : α → Prop) :
    (∀ j ∈ List.range A.length, Q (A.getD j d)) ↔ ∀ a ∈ A, Q a := by
  constructor
  · intro h a ha
    obtain ⟨j, hj, hja⟩ := List.mem_iff_getElem.mp ha
    have hq := h j (List.mem_range.mpr hj)
    rw [List.getD_eq_getElem _ _ hj, hja] at hq
    exact hq
  · intro h j hj
    have hjl := List.mem_range.mp hj
    rw [List.getD_eq_getElem _ _ hjl]
    exact h _ (List.getElem_mem hjl)

theorem exists_range_getD {α : Type} (A : List α) (d : α) (Q : α → Prop) :
    (∃ j ∈ List.range A.length, Q (A.getD j d)) ↔ ∃ a ∈ A, Q a := by
  constructor
  · intro ⟨j, hj, hq⟩
    have hjl := List.mem_range.mp hj
    rw [List.getD_eq_getElem _ _ hjl] at hq
    exact ⟨_, List.getElem_mem hjl, hq⟩
  · intro ⟨a, ha, hq⟩
    obtain ⟨j, hj, hja⟩ := List.mem_iff_getElem.mp ha
    refine ⟨j, List.mem_range.mpr hj, ?_⟩
    rw [List.getD_eq_getElem _ _ hj, hja]
    exact hq

theorem rowFns_typeonly_length (Ts : List ExcType) (ib nb : Bool) :
    (RaisesGroup.mk (Ts.map ExpectedArg.etype) false false none none
      ib nb).rowFns.length = Ts.length := by
  simp [RaisesGroup.rowFns, RaisesGroup.expected_exceptions]

theorem chkOf_typeonly (Ts : List ExcType) (ib nb : Bool) (A : List Exc)
    (i j : Nat) (hi : i < Ts.length) (hj : j < A.length) :
    (RaisesGroup.mk (Ts.map ExpectedArg.etype) false false none none
      ib nb).chkOf A i j =
      .ok (_check_raw_type (some (Ts.getD i BaseExceptionTy))
        (A.getD j default)) := by
  simp only [RaisesGroup.chkOf, mkChk, RaisesGroup.rowFns,
    RaisesGroup.expected_exceptions, List.map_map]
  rw [List.get?_eq_getElem?, List.get?_eq_getElem?]
  rw [List.getElem?_eq_getElem (by simpa using hi),
    List.getElem?_eq_getElem hj]
  simp only [List.getElem_map, Function.comp]
  rw [checkExpectedArgF_succ_etype]
  rw [List.getD_eq_getElem _ _ hi, List.getD_eq_getElem _ _ hj]

theorem typeonly_matchesB_iff (Ts : List ExcType) (ib nb : Bool)
    (gt : ExcType) (gm : String) (gn : List String) (A : List Exc)
    (hg : isinstanceGroup (.group gt gm gn A) = true)
    (hnd : Ts.Nodup)
    (hdisj : ∀ a ∈ A, ∀ t ∈ Ts, ∀ u ∈ Ts,
      isinstance a t = true → isinstance a u = true → t = u) :
    ((RaisesGroup.mk (Ts.map ExpectedArg.etype) false false none none
      ib nb).matchesB (some (.group gt gm gn A)) = true) ↔
      ((∀ t ∈ Ts, A.countP (fun a => isinstance a t) = 1) ∧
       (∀ a ∈ A, ∃ t ∈ Ts, isinstance a t = true)) := by
  have hlen : (RaisesGroup.mk (Ts.map ExpectedArg.etype) false false none
      none ib nb).rowFns.length = Ts.length := rowFns_typeonly_length Ts ib nb
  -- the pointwise content of a cell, with bounds
  have hcell : ∀ i < Ts.length, ∀ j < A.length,
      ((RaisesGroup.mk (Ts.map ExpectedArg.etype) false false none none
        ib nb).chkOf A i j = .ok none ↔
        isinstance (A.getD j default) (Ts.getD i BaseExceptionTy) = true) := by
    intro i hi j hj
    rw [chkOf_typeonly Ts ib nb A i j hi hj]
    constructor
    · intro h
      have h2 : _check_raw_type (some (Ts.getD i BaseExceptionTy))
          (A.getD j default) = none := by
        cases hx : _check_raw_type (some (Ts.getD i BaseExceptionTy))
            (A.getD j default) with
        | none => rfl
        | some s => rw [hx] at h; cases h
      exact (check_raw_type_none_iff _ _).mp h2
    · intro h
      rw [(check_raw_type_none_iff _ _).mpr h]
  -- totality of the greedy pass
  obtain ⟨g, hgreedy⟩ : ∃ g,
      greedyLoop ((RaisesGroup.mk (Ts.map ExpectedArg.etype) false false
        none none ib nb).chkOf A)
        (List.range (RaisesGroup.mk (Ts.map ExpectedArg.etype) false false
          none none ib nb).rowFns.length)
        (List.range A.length)
        (ResultHolder.init (RaisesGroup.mk (Ts.map ExpectedArg.etype) false
          false none none ib nb).rowFns.length A.length) = .ok g := by
    apply greedyLoop_total
    intro i hi j hj
    rw [hlen] at hi
    exact ⟨_, chkOf_typeonly Ts ib nb A i j (List.mem_range.mp hi)
      (List.mem_range.mp hj)⟩
  -- the index-level uniqueness hypothesis
  have huniq : ∀ j ∈ List.range A.length,
      ∀ i1 ∈ List.range (RaisesGroup.mk (Ts.map ExpectedArg.etype) false
        false none none ib nb).rowFns.length,
      ∀ i2 ∈ List.range (RaisesGroup.mk (Ts.map ExpectedArg.etype) false
        false none none ib nb).rowFns.length,
      (RaisesGroup.mk (Ts.map ExpectedArg.etype) false false none none
        ib nb).chkOf A i1 j = .ok none →
      (RaisesGroup.mk (Ts.map ExpectedArg.etype) false false none none
        ib nb).chkOf A i2 j = .ok none → i1 = i2 := by
    intro j hj i1 hi1 i2 hi2 h1 h2
    rw [hlen] at hi1 hi2
    have hj2 := List.mem_range.mp hj
    have hi1b := List.mem_range.mp hi1
    have hi2b := List.mem_range.mp hi2
    have e1 := (hcell i1 hi1b j hj2).mp h1
    have e2 := (hcell i2 hi2b j hj2).mp h2
    have hmemj : A.getD j default ∈ A := by
      rw [List.getD_eq_getElem _ _ hj2]; exact List.getElem_mem hj2
    have hmem1 : Ts.getD i1 BaseExceptionTy ∈ Ts := by
      rw [List.getD_eq_getElem _ _ hi1b]; exact List.getElem_mem hi1b
    have hmem2 : Ts.getD i2 BaseExceptionTy ∈ Ts := by
      rw [List.getD_eq_getElem _ _ hi2b]; exact List.getElem_mem hi2b
    have heq := hdisj _ hmemj _ hmem1 _ hmem2 e1 e2
    rw [List.getD_eq_getElem _ _ hi1b, List.getD_eq_getElem _ _ hi2b] at heq
    exact (List.Nodup.getElem_inj_iff hnd).mp heq
  rw [matchesB_group_iff _ _ _ gt gm gn A hg, checkExceptionsR_def2,
    checkExceptionsCore_true_iff possible_match _ _ A g hgreedy]
  rw [Bool.and_eq_true, List.isEmpty_iff, List.isEmpty_iff]
  constructor
  · intro ⟨hre, hfe⟩
    obtain ⟨hcnt, hcov⟩ := greedy_success_phi hgreedy (List.nodup_range _)
      huniq hre hfe
    constructor
    · rw [← forall_range_getD Ts BaseExceptionTy
        (fun t => A.countP (fun a => isinstance a t) = 1)]
      intro i hi
      have hib := List.mem_range.mp hi
      have hc := hcnt i (by rw [hlen]; exact hi)
      rw [← countP_range_getD A default
        (fun a => isinstance a (Ts.getD i BaseExceptionTy))]
      rw [← hc]
      apply List.countP_congr
      intro j hj
      have hjb := List.mem_range.mp hj
      rw [isOkNone_iff]
      exact ((hcell i hib j hjb)).symm
    · rw [← forall_range_getD A default
        (fun a => ∃ t ∈ Ts, isinstance a t = true)]
      intro j hj
      have hjb := List.mem_range.mp hj
      obtain ⟨i, hi, hchk⟩ := hcov j hj
      rw [hlen] at hi
      have hib := List.mem_range.mp hi
      rw [← exists_range_getD Ts BaseExceptionTy
        (fun t => isinstance (A.getD j default) t = true)]
      exact ⟨i, hi, (hcell i hib j hjb).mp hchk⟩
  · intro ⟨hcnt, hcov⟩
    apply greedy_phi_success hgreedy (List.nodup_range _)
      (List.nodup_range _) huniq
    · intro i hi
      rw [hlen] at hi
      have hib := List.mem_range.mp hi
      have hc := (forall_range_getD Ts BaseExceptionTy
        (fun t => A.countP (fun a => isinstance a t) = 1)).mpr hcnt i
        (List.mem_range.mpr hib)
      rw [← countP_range_getD A default
        (fun a => isinstance a (Ts.getD i BaseExceptionTy))] at hc
      rw [← hc]
      apply List.countP_congr
      intro j hj
      have hjb := List.mem_range.mp hj
      rw [isOkNone_iff]
      exact hcell i hib j hjb
    · intro j hj
      have hjb := List.mem_range.mp hj
      have hc := (forall_range_getD A default
        (fun a => ∃ t ∈ Ts, isinstance a t = true)).mpr hcov j hj
      rw [← exists_range_getD Ts BaseExceptionTy
        (fun t => isinstance (A.getD j default) t = true)] at hc
      obtain ⟨i, hi, hinst⟩ := hc
      have hib := List.mem_range.mp hi
      exact ⟨i, by rw [hlen]; exact hi, (hcell i hib j hjb).mpr hinst⟩

/-- Helper for C7: for purely type-based expected patterns with no
duplicate types and such that no actual exception is an instance of two
distinct expected types, the error-collapsing boolean `matchesB` is
invariant under simultaneously permuting the expected-pattern order and
the actual-error order. -/
theorem typeonly_matchesB_perm_eq (Ts Ts2 : List ExcType)
    (A A2 : List Exc) (gt : ExcType) (gm : String) (gn : List String)
    (ib nb : Bool)
    (hpt : Ts.Perm Ts2) (hpa : A.Perm A2)
    (hg : isinstanceGroup (.group gt gm gn A) = true)
    (hnd : Ts.Nodup)
    (hdisj : ∀ a ∈ A, ∀ t ∈ Ts, ∀ u ∈ Ts,
      isinstance a t = true → isinstance a u = true → t = u) :
    (RaisesGroup.mk (Ts.map ExpectedArg.etype) false false none none
      ib nb).matchesB (some (.group gt gm gn A)) =
    (RaisesGroup.mk (Ts2.map ExpectedArg.etype) false false none none
      ib nb).matchesB (some (.group gt gm gn A2)) := by
  have hg2 : isinstanceGroup (.group gt gm gn A2) = true := hg
  have hnd2 : Ts2.Nodup := hpt.nodup_iff.mp hnd
  have hdisj2 : ∀ a ∈ A2, ∀ t ∈ Ts2, ∀ u ∈ Ts2,
      isinstance a t = true → isinstance a u = true → t = u := by
    intro a ha t ht u hu h1 h2
    exact hdisj a (hpa.mem_iff.mpr ha) t (hpt.mem_iff.mpr ht)
      u (hpt.mem_iff.mpr hu) h1 h2
  have h1 := typeonly_matchesB_iff Ts ib nb gt gm gn A hg hnd hdisj
  have h2 := typeonly_matchesB_iff Ts2 ib nb gt gm gn A2 hg2 hnd2 hdisj2
  have hphi : ((∀ t ∈ Ts, A.countP (fun a => isinstance a t) = 1) ∧
       (∀ a ∈ A, ∃ t ∈ Ts, isinstance a t = true)) ↔
      ((∀ t ∈ Ts2, A2.countP (fun a => isinstance a t) = 1) ∧
       (∀ a ∈ A2, ∃ t ∈ Ts2, isinstance a t = true)) := by
    constructor
    · intro ⟨hc, hv⟩
      refine ⟨fun t ht => ?_, fun a ha => ?_⟩
      · rw [← hpa.countP_eq]; exact hc t (hpt.mem_iff.mpr ht)
      · obtain ⟨t, ht, hi⟩ := hv a (hpa.mem_iff.mpr ha)
        exact ⟨t, hpt.mem_iff.mp ht, hi⟩
    · intro ⟨hc, hv⟩
      refine ⟨fun t ht => ?_, fun a ha => ?_⟩
      · rw [hpa.countP_eq]; exact hc t (hpt.mem_iff.mp ht)
      · obtain ⟨t, ht, hi⟩ := hv a (hpa.mem_iff.mp ha)
        exact ⟨t, hpt.mem_iff.mpr ht, hi⟩
  have hiff := h1.trans (hphi.trans h2.symm)
  cases hL : (RaisesGroup.mk (Ts.map ExpectedArg.etype) false false none
      none ib nb).matchesB (some (.group gt gm gn A)) with
  | true => exact (hiff.mp hL).symm
  | false =>
    cases hR : (RaisesGroup.mk (Ts2.map ExpectedArg.etype) false false
        none none ib nb).matchesB (some (.group gt gm gn A2)) with
    | true =>
      have hc := hiff.mpr hR
      rw [hL] at hc
      cases hc
    | false => rfl

/-- `matchesB` is true exactly when `matches` returns (does not raise) with
the boolean `True`. -/
theorem matchesB_true_iff_R (rg : RaisesGroup) (x : Option Exc) :
    rg.matchesB x = true ↔ ∃ r, rg.matchesR x = .ok (true, r) := by
  cases h : rg.matchesR x with
  | error e => simp [RaisesGroup.matchesB, h]
  | ok p =>
    obtain ⟨b, r⟩ := p
    cases b <;> simp [RaisesGroup.matchesB, h]

/-- C7 (amended): for purely type-based expected patterns with no duplicate
types and such that no actual exception is an instance of two distinct
expected types, the outcome of `matches` is invariant under simultaneously
permuting the expected-pattern order and the actual-error order, to the
extent that the program delivers a boolean: returning `True` is invariant
outright, and whenever both orderings return a boolean at all (rather than
raising, which the C9 bug makes possible on some inputs of this family),
the two booleans are equal. -/
theorem raisesGroup_type_order_indep (Ts Ts2 : List ExcType)
    (A A2 : List Exc) (gt : ExcType) (gm : String) (gn : List String)
    (ib nb : Bool)
    (hpt : Ts.Perm Ts2) (hpa : A.Perm A2)
    (hg : isinstanceGroup (.group gt gm gn A) = true)
    (hnd : Ts.Nodup)
    (hsub : ∀ t ∈ Ts, ∀ u ∈ Ts, t ≠ u → issubclass t u = false)
    (hdisj : ∀ a ∈ A, ∀ t ∈ Ts, ∀ u ∈ Ts,
      isinstance a t = true → isinstance a u = true → t = u) :
    ((∃ r, (RaisesGroup.mk (Ts.map ExpectedArg.etype) false false none none
        ib nb).matchesR (some (.group gt gm gn A)) = .ok (true, r)) ↔
      (∃ r, (RaisesGroup.mk (Ts2.map ExpectedArg.etype) false false none
        none ib nb).matchesR (some (.group gt gm gn A2)) = .ok (true, r))) ∧
    (∀ b1 r1 b2 r2,
      (RaisesGroup.mk (Ts.map ExpectedArg.etype) false false none none
        ib nb).matchesR (some (.group gt gm gn A)) = .ok (b1, r1) →
      (RaisesGroup.mk (Ts2.map ExpectedArg.etype) false false none none
        ib nb).matchesR (some (.group gt gm gn A2)) = .ok (b2, r2) →
      b1 = b2) := by
  have heq := typeonly_matchesB_perm_eq Ts Ts2 A A2 gt gm gn ib nb
    hpt hpa hg hnd hdisj
  constructor
  · rw [← matchesB_true_iff_R, ← matchesB_true_iff_R, heq]
  · intro b1 r1 b2 r2 h1 h2
    have hb1 : (RaisesGroup.mk (Ts.map ExpectedArg.etype) false false none
        none ib nb).matchesB (some (.group gt gm gn A)) = b1 := by
      simp [RaisesGroup.matchesB, h1]
    have hb2 : (RaisesGroup.mk (Ts2.map ExpectedArg.etype) false false none
        none ib nb).matchesB (some (.group gt gm gn A2)) = b2 := by
      simp [RaisesGroup.matchesB, h2]
    rw [← hb1, ← hb2, heq]

/-- C7 witness: the amended order-independence theorem applied to the
concrete pair ValueError/TypeError against a group of a ValueError and a
TypeError, with both lists reversed. -/
theorem raisesGroup_type_order_indep_witness :
    (∃ r, (RaisesGroup.mk [ExpectedArg.etype ValueErrorTy,
        ExpectedArg.etype TypeErrorTy] false false none none
      false false).matchesR (some (.group ExceptionGroupTy "" []
        [.leaf ValueErrorTy "x" [], .leaf TypeErrorTy "y" []])) =
        .ok (true, r)) ↔
    (∃ r, (RaisesGroup.mk [ExpectedArg.etype TypeErrorTy,
        ExpectedArg.etype ValueErrorTy] false false none none
      false false).matchesR (some (.group ExceptionGroupTy "" []
        [.leaf TypeErrorTy "y" [], .leaf ValueErrorTy "x" []])) =
        .ok (true, r)) :=
  (raisesGroup_type_order_indep [ValueErrorTy, TypeErrorTy]
    [TypeErrorTy, ValueErrorTy]
    [Exc.leaf ValueErrorTy "x" [], Exc.leaf TypeErrorTy "y" []]
    [Exc.leaf TypeErrorTy "y" [], Exc.leaf ValueErrorTy "x" []]
    ExceptionGroupTy "" [] false false
    (List.Perm.swap TypeErrorTy ValueErrorTy [])
    (List.Perm.swap (Exc.leaf TypeErrorTy "y" []) (Exc.leaf ValueErrorTy "x" []) [])
    rfl (by decide) (by decide) (by decide)).1

/-- C7 counterexample: with multiple inheritance, a class can be an
instance of two expected types that are themselves neither duplicated nor
subtype-related; the hypotheses of the original claim then hold, and both
orderings return a boolean (neither raises), yet swapping the
expected-pattern order flips the returned verdict from `True` to
`False`. -/
theorem raisesGroup_type_order_counterexample :
    ([ValueErrorTy, TypeErrorTy].Nodup ∧
     (∀ t ∈ [ValueErrorTy, TypeErrorTy], ∀ u ∈ [ValueErrorTy, TypeErrorTy],
        t ≠ u → issubclass t u = false)) ∧
    Except.map Prod.fst
      ((RaisesGroup.mk [ExpectedArg.etype ValueErrorTy,
          ExpectedArg.etype TypeErrorTy] false false none none
        false false).matchesR (some (.group ExceptionGroupTy "" []
          [.leaf ValueTypeErrorTy "x" [], .leaf TypeErrorTy "y" []])))
      = .ok true ∧
    Except.map Prod.fst
      ((RaisesGroup.mk [ExpectedArg.etype TypeErrorTy,
          ExpectedArg.etype ValueErrorTy] false false none none
        false false).matchesR (some (.group ExceptionGroupTy "" []
          [.leaf ValueTypeErrorTy "x" [], .leaf TypeErrorTy "y" []])))
      = .ok false :=
  ⟨⟨by decide, by decide⟩, rfl, rfl⟩
